import Mathlib

/-!
Verification of the `fiscalyear` library (src/fiscalyear.py).

The library computes fiscal-calendar periods (year / quarter / month / day)
from a configurable fiscal-calendar start.  The Gregorian date/datetime
primitive (Python's `datetime` module) is an external dependency of the
library; it is modelled here by explicit `Date` / `DateTime` structures with
component-wise lexicographic comparison (which coincides with Python's
`datetime` comparison) and calendar successor/predecessor arithmetic.

Years, months and days are modelled as `Int` (Python integers); Python's
`%` on positive moduli agrees with `Int.emod`.  Functions that can raise in
Python return `Except PyErr`.
-/

deriving instance DecidableEq for Except

namespace Fiscalyear

/-- Python exception kinds distinguished by the library. -/
inductive PyErr where
  | typeError : PyErr
  | valueError : PyErr
  | userError : PyErr
deriving DecidableEq, Repr

/-- `calendar.isleap`: Gregorian leap-year test. -/
def isGregorianLeap (y : Int) : Bool :=
  decide (y % 4 = 0) && (decide (y % 100 ≠ 0) || decide (y % 400 = 0))

/-- `calendar.monthrange(y, m)[1]`: number of days of month `m` of year `y`. -/
def monthLength (y m : Int) : Int :=
  if m = 1 then 31
  else if m = 2 then (if isGregorianLeap y then 29 else 28)
  else if m = 3 then 31
  else if m = 4 then 30
  else if m = 5 then 31
  else if m = 6 then 30
  else if m = 7 then 31
  else if m = 8 then 31
  else if m = 9 then 30
  else if m = 10 then 31
  else if m = 11 then 30
  else if m = 12 then 31
  else 0

/-- A proleptic Gregorian calendar date (model of `datetime.date`). -/
structure Date where
  year : Int
  month : Int
  day : Int
deriving DecidableEq, Repr

/-- A proleptic Gregorian datetime (model of `datetime.datetime`,
microseconds and timezones omitted: the library only ever produces
microsecond-zero naive datetimes). -/
structure DateTime where
  year : Int
  month : Int
  day : Int
  hour : Int
  minute : Int
  second : Int
deriving DecidableEq, Repr

/-- `datetime.date` comparison: strict lexicographic component order. -/
def dateLt (a b : Date) : Prop :=
  a.year < b.year ∨ (a.year = b.year ∧
    (a.month < b.month ∨ (a.month = b.month ∧ a.day < b.day)))

instance (a b : Date) : Decidable (dateLt a b) := by
  unfold dateLt; infer_instance

/-- `datetime.date` comparison: non-strict lexicographic component order. -/
def dateLe (a b : Date) : Prop :=
  dateLt a b ∨ a = b

instance (a b : Date) : Decidable (dateLe a b) := by
  unfold dateLe; infer_instance

/-- `datetime.datetime` comparison: strict lexicographic component order. -/
def dtLt (a b : DateTime) : Prop :=
  a.year < b.year ∨ (a.year = b.year ∧
    (a.month < b.month ∨ (a.month = b.month ∧
      (a.day < b.day ∨ (a.day = b.day ∧
        (a.hour < b.hour ∨ (a.hour = b.hour ∧
          (a.minute < b.minute ∨ (a.minute = b.minute ∧
            a.second < b.second)))))))))

instance (a b : DateTime) : Decidable (dtLt a b) := by
  unfold dtLt; infer_instance

/-- `datetime.datetime` comparison: non-strict lexicographic order. -/
def dtLe (a b : DateTime) : Prop :=
  dtLt a b ∨ a = b

instance (a b : DateTime) : Decidable (dtLe a b) := by
  unfold dtLe; infer_instance

/-- The calendar-date projection `datetime.date()` of a datetime. -/
def DateTime.toDate (t : DateTime) : Date :=
  ⟨t.year, t.month, t.day⟩

/-- The midnight datetime of a calendar date. -/
def Date.atMidnight (d : Date) : DateTime :=
  ⟨d.year, d.month, d.day, 0, 0, 0⟩

/-- A structurally valid calendar date in `datetime`'s representable range
(`MINYEAR = 1` to `MAXYEAR = 9999`). -/
def validDate (d : Date) : Prop :=
  1 ≤ d.year ∧ d.year ≤ 9999 ∧ 1 ≤ d.month ∧ d.month ≤ 12 ∧
    1 ≤ d.day ∧ d.day ≤ monthLength d.year d.month

instance (d : Date) : Decidable (validDate d) := by
  unfold validDate; infer_instance

/-- A structurally valid datetime in `datetime`'s representable range. -/
def validDateTime (t : DateTime) : Prop :=
  validDate t.toDate ∧ 0 ≤ t.hour ∧ t.hour ≤ 23 ∧
    0 ≤ t.minute ∧ t.minute ≤ 59 ∧ 0 ≤ t.second ∧ t.second ≤ 59

instance (t : DateTime) : Decidable (validDateTime t) := by
  unfold validDateTime; infer_instance

/-- The calendar predecessor of a date (external calendar arithmetic). -/
def prevDay (d : Date) : Date :=
  if 1 < d.day then ⟨d.year, d.month, d.day - 1⟩
  else if 1 < d.month then
    ⟨d.year, d.month - 1, monthLength d.year (d.month - 1)⟩
  else ⟨d.year - 1, 12, 31⟩

/-- The calendar successor of a date (external calendar arithmetic). -/
def nextDay (d : Date) : Date :=
  if d.day < monthLength d.year d.month then ⟨d.year, d.month, d.day + 1⟩
  else if d.month < 12 then ⟨d.year, d.month + 1, 1⟩
  else ⟨d.year + 1, 1, 1⟩

/-- `t - timedelta(seconds=1)` on the external datetime type: the preceding
second in the proleptic Gregorian calendar. -/
def subOneSecond (t : DateTime) : DateTime :=
  if 0 < t.second then ⟨t.year, t.month, t.day, t.hour, t.minute, t.second - 1⟩
  else if 0 < t.minute then ⟨t.year, t.month, t.day, t.hour, t.minute - 1, 59⟩
  else if 0 < t.hour then ⟨t.year, t.month, t.day, t.hour - 1, 59, 59⟩
  else
    let p := prevDay t.toDate
    ⟨p.year, p.month, p.day, 23, 59, 59⟩

/-- `t + timedelta(seconds=1)` on the external datetime type: the following
second in the proleptic Gregorian calendar. -/
def addOneSecond (t : DateTime) : DateTime :=
  if t.second < 59 then ⟨t.year, t.month, t.day, t.hour, t.minute, t.second + 1⟩
  else if t.minute < 59 then ⟨t.year, t.month, t.day, t.hour, t.minute + 1, 0⟩
  else if t.hour < 23 then ⟨t.year, t.month, t.day, t.hour + 1, 0, 0⟩
  else
    let n := nextDay t.toDate
    ⟨n.year, n.month, n.day, 0, 0, 0⟩

/-- `t - timedelta(seconds=1)` as the Python runtime performs it: raises
`OverflowError` when the result falls below `datetime.min`. -/
def subOneSecondChecked (t : DateTime) : Except PyErr DateTime :=
  let r := subOneSecond t
  if 1 ≤ r.year then .ok r else .error .valueError

/-- The constructor `FiscalDateTime(year, month, day, hour, minute, second)`:
`datetime.datetime` validation of all components. -/
def mkFiscalDateTime (y m d h mi s : Int) : Except PyErr DateTime :=
  let t : DateTime := ⟨y, m, d, h, mi, s⟩
  if validDateTime t then .ok t else .error .valueError

/-- `_check_year`: valid iff `datetime.MINYEAR <= year <= datetime.MAXYEAR`. -/
def checkYear (year : Int) : Except PyErr Int :=
  if 1 ≤ year ∧ year ≤ 9999 then .ok year else .error .valueError

/-- `_check_month`: valid iff `1 <= month <= 12`. -/
def checkMonth (month : Int) : Except PyErr Int :=
  if 1 ≤ month ∧ month ≤ 12 then .ok month else .error .valueError

/-- `_check_day`: valid iff `month` is a valid month and
`1 <= day <= calendar.monthrange(2001, month)[1]` (non-leap reference year). -/
def checkDay (month day : Int) : Except PyErr Int := do
  let m ← checkMonth month
  if 1 ≤ day ∧ day ≤ monthLength 2001 m then .ok day else .error .valueError

/-- `_check_quarter`: valid iff `MIN_QUARTER <= quarter <= MAX_QUARTER`. -/
def checkQuarter (quarter : Int) : Except PyErr Int :=
  if 1 ≤ quarter ∧ quarter ≤ 4 then .ok quarter else .error .valueError

/-- The two recognized values of the `START_YEAR` global. -/
inductive StartYear where
  | previous : StartYear
  | same : StartYear
deriving DecidableEq, Repr

/-- A raw `start_year` argument before validation: a recognized string, an
unrecognized string, or a non-string value. -/
inductive RawStartYear where
  | ok (s : StartYear) : RawStartYear
  | badString : RawStartYear
  | nonString : RawStartYear
deriving DecidableEq, Repr

/-- The global fiscal-calendar configuration
`(START_YEAR, START_MONTH, START_DAY)` (always installed post-validation,
so `START_YEAR` holds a recognized value). -/
structure Config where
  startYear : StartYear
  startMonth : Int
  startDay : Int
deriving DecidableEq, Repr

/-- The library default: the U.S. federal fiscal year. -/
def defaultConfig : Config := ⟨.previous, 10, 1⟩

/-- The invariant `_validate_fiscal_calendar_params` enforces on an
installed configuration. -/
def validConfig (c : Config) : Prop :=
  1 ≤ c.startMonth ∧ c.startMonth ≤ 12 ∧
    1 ≤ c.startDay ∧ c.startDay ≤ monthLength 2001 c.startMonth

instance (c : Config) : Decidable (validConfig c) := by
  unfold validConfig; infer_instance

/-- The raw form of an installed configuration value (its `START_YEAR`
global is a recognized string). -/
def Config.rawStartYear (c : Config) : RawStartYear := .ok c.startYear

/-- `_validate_fiscal_calendar_params(start_year, start_month, start_day)`:
`TypeError` if `start_year` is not a `str`, `ValueError` if it is not
`'previous'`/`'same'`, then `_check_day(start_month, start_day)`. -/
def validateFiscalCalendarParams (sy : RawStartYear) (sm sd : Int) :
    Except PyErr StartYear := do
  match sy with
  | .nonString => .error .typeError
  | .badString => .error .valueError
  | .ok s =>
      let _ ← checkDay sm sd
      .ok s

/-- `setup_fiscal_calendar(start_year, start_month, start_day)`: omitted
arguments default to the currently active values; the merged triple is
validated before any global is assigned.  Returns the resulting global
configuration; on `.error` the globals still hold `cur` (validation
precedes all three assignments). -/
def setupFiscalCalendar (cur : Config) (psy : Option RawStartYear)
    (psm psd : Option Int) : Except PyErr Config := do
  let sy := psy.getD cur.rawStartYear
  let sm := psm.getD cur.startMonth
  let sd := psd.getD cur.startDay
  let s ← validateFiscalCalendarParams sy sm sd
  .ok ⟨s, sm, sd⟩

/-- Whether the body of a `with fiscal_calendar(...)` block returns
normally or raises a propagated exception. -/
inductive BodyOutcome where
  | normal : BodyOutcome
  | raises : BodyOutcome
deriving DecidableEq, Repr

/-- The `fiscal_calendar` context manager, as a state transformer on the
global configuration: merge omitted arguments, save the previous values,
install the merged configuration via `setup_fiscal_calendar`, run the body,
and (only on normal return — the generator has no `try/finally`) restore
the saved values.  The result is the global configuration after the
`with`-block exits, paired with `.error` when an exception propagated. -/
def fiscalCalendar (cur : Config) (psy : Option RawStartYear)
    (psm psd : Option Int) (body : BodyOutcome) : Config × Option PyErr :=
  let sy := psy.getD cur.rawStartYear
  let sm := psm.getD cur.startMonth
  let sd := psd.getD cur.startDay
  match setupFiscalCalendar cur (some sy) (some sm) (some sd) with
  | .error e => (cur, some e)
  | .ok installed =>
      match body with
      | .raises => (installed, some .userError)
      | .normal =>
          match setupFiscalCalendar installed
              (some cur.rawStartYear) (some cur.startMonth)
              (some cur.startDay) with
          | .error e => (installed, some e)
          | .ok restored => (restored, none)

/-- `FiscalYear` identity: a single fiscal-year label. -/
structure FY where
  fy : Int
deriving DecidableEq, Repr

/-- `FiscalQuarter` identity: `(fiscal_year, fiscal_quarter)`. -/
structure FQ where
  fy : Int
  q : Int
deriving DecidableEq, Repr

/-- `FiscalMonth` identity: `(fiscal_year, fiscal_month)`. -/
structure FM where
  fy : Int
  m : Int
deriving DecidableEq, Repr

/-- `FiscalDay` identity: `(fiscal_year, fiscal_day)`. -/
structure FD where
  fy : Int
  d : Int
deriving DecidableEq, Repr

/-- The `FiscalYear` constructor: `_check_year` then store. -/
def mkFY (fiscalYear : Int) : Except PyErr FY := do
  let y ← checkYear fiscalYear
  .ok ⟨y⟩

/-- The `FiscalQuarter` constructor: `_check_year`, `_check_quarter`. -/
def mkFQ (fiscalYear fiscalQuarter : Int) : Except PyErr FQ := do
  let y ← checkYear fiscalYear
  let q ← checkQuarter fiscalQuarter
  .ok ⟨y, q⟩

/-- The `FiscalMonth` constructor: `_check_year`, `_check_month`. -/
def mkFM (fiscalYear fiscalMonth : Int) : Except PyErr FM := do
  let y ← checkYear fiscalYear
  let m ← checkMonth fiscalMonth
  .ok ⟨y, m⟩

/-- First month of fiscal quarter `q` (from `FiscalQuarter.start`):
`month = START_MONTH + (q - 1) * MONTHS_PER_QUARTER; month %= 12;
if month == 0: month = 12`. -/
def quarterStartMonth (sm q : Int) : Int :=
  if (sm + (q - 1) * 3) % 12 = 0 then 12 else (sm + (q - 1) * 3) % 12

/-- Calendar year of the start of fiscal quarter `q` (from
`FiscalQuarter.start`): `fy - 1` under `'previous'` else `fy`, then `+ 1`
when the quarter's first month precedes `START_MONTH`. -/
def quarterStartYear (c : Config) (fy q : Int) : Int :=
  (match c.startYear with
    | .previous => fy - 1
    | .same => fy) +
  (if quarterStartMonth c.startMonth q < c.startMonth then 1 else 0)

/-- Day of the start of fiscal quarter `q` (from `FiscalQuarter.start`):
`min(START_DAY, calendar.monthrange(year, month)[1])`. -/
def quarterStartDay (c : Config) (fy q : Int) : Int :=
  min c.startDay
    (monthLength (quarterStartYear c fy q) (quarterStartMonth c.startMonth q))

/-- The start date of fiscal quarter `q` of fiscal year `fy` (components as
`FiscalQuarter.start` computes them, before `FiscalDateTime` validation). -/
def quarterStartDate (c : Config) (fy q : Int) : Date :=
  ⟨quarterStartYear c fy q, quarterStartMonth c.startMonth q,
    quarterStartDay c fy q⟩

/-- `FiscalQuarter.start`: builds
`FiscalDateTime(year, month, day, 0, 0, 0)` from the computed components. -/
def fqStart (c : Config) (x : FQ) : Except PyErr DateTime :=
  mkFiscalDateTime (quarterStartYear c x.fy x.q)
    (quarterStartMonth c.startMonth x.q) (quarterStartDay c x.fy x.q) 0 0 0

/-- `FiscalQuarter.next_fiscal_quarter`: `q + 1`, wrapping `5` to
`(fy + 1, 1)`, then the validating `FiscalQuarter` constructor. -/
def nextFQ (x : FQ) : Except PyErr FQ :=
  let q := x.q + 1
  if q = 5 then mkFQ (x.fy + 1) 1 else mkFQ x.fy q

/-- `FiscalQuarter.prev_fiscal_quarter`: `q - 1`, wrapping `0` to
`(fy - 1, 4)`, then the validating `FiscalQuarter` constructor. -/
def prevFQ (x : FQ) : Except PyErr FQ :=
  let q := x.q - 1
  if q = 0 then mkFQ (x.fy - 1) 4 else mkFQ x.fy q

/-- `FiscalQuarter.end`: the start of the next fiscal quarter minus one
second (re-wrapped by a `FiscalDateTime` constructor that cannot fail on
the already-valid result). -/
def fqEnd (c : Config) (x : FQ) : Except PyErr DateTime := do
  let n ← nextFQ x
  let s ← fqStart c n
  subOneSecondChecked s

/-- `FiscalYear.start`: `self.q1.start` (with the `FiscalQuarter`
constructor validation of `(fy, 1)`). -/
def fyStart (c : Config) (fy : Int) : Except PyErr DateTime := do
  let x ← mkFQ fy 1
  fqStart c x

/-- `FiscalYear.end`: `self.q4.end`. -/
def fyEnd (c : Config) (fy : Int) : Except PyErr DateTime := do
  let x ← mkFQ fy 4
  fqEnd c x

/-- `FiscalYear.isleap`: whether the fiscal year contains a leap day,
via `(start.month, start.day) < (3, 1)` combined with `START_YEAR`. -/
def fyIsLeap (c : Config) (fy : Int) : Except PyErr Bool := do
  let s ← fyStart c fy
  let startsOnOrBeforePossibleLeapDay : Bool :=
    decide (s.month < 3 ∨ (s.month = 3 ∧ s.day < 1))
  let calendarYear := match c.startYear with
    | .previous =>
        if startsOnOrBeforePossibleLeapDay then fy - 1 else fy
    | .same =>
        if startsOnOrBeforePossibleLeapDay then fy else fy + 1
  .ok (isGregorianLeap calendarYear)

/-- `_check_fiscal_day`: `_check_year`, then valid iff
`1 <= fiscal_day <= (366 if FiscalYear(fiscal_year).isleap else 365)`. -/
def checkFiscalDay (c : Config) (fiscalYear fiscalDay : Int) :
    Except PyErr Int := do
  let y ← checkYear fiscalYear
  let leap ← fyIsLeap c y
  let maxDay : Int := if leap then 366 else 365
  if 1 ≤ fiscalDay ∧ fiscalDay ≤ maxDay then .ok fiscalDay
  else .error .valueError

/-- The `FiscalDay` constructor: `_check_year`, `_check_fiscal_day`. -/
def mkFD (c : Config) (fiscalYear fiscalDay : Int) : Except PyErr FD := do
  let y ← checkYear fiscalYear
  let d ← checkFiscalDay c y fiscalDay
  .ok ⟨y, d⟩

/-- `FiscalMonth.start`: calendar month `(START_MONTH + m - 1) % 12` with
`0 ↦ 12`; calendar year from `START_YEAR` and whether that month is on or
after `START_MONTH`; day fixed to `START_DAY` (no clamping). -/
def fmStart (c : Config) (x : FM) : Except PyErr DateTime :=
  let calendarMonth :=
    let m := (c.startMonth + x.m - 1) % 12
    if m = 0 then 12 else m
  let monthIsOnOrAfterStartMonth : Bool := decide (calendarMonth ≥ c.startMonth)
  let calendarYear := match c.startYear with
    | .previous => if monthIsOnOrAfterStartMonth then x.fy - 1 else x.fy
    | .same => if monthIsOnOrAfterStartMonth then x.fy else x.fy + 1
  mkFiscalDateTime calendarYear calendarMonth c.startDay 0 0 0

/-- `FiscalMonth.next_fiscal_month`: `m + 1`, wrapping `13` to
`(fy + 1, 1)`, then the validating `FiscalMonth` constructor. -/
def nextFM (x : FM) : Except PyErr FM :=
  let m := x.m + 1
  if m = 13 then mkFM (x.fy + 1) 1 else mkFM x.fy m

/-- `FiscalMonth.prev_fiscal_month`: `m - 1`, wrapping `0` to
`(fy - 1, 12)`, then the validating `FiscalMonth` constructor. -/
def prevFM (x : FM) : Except PyErr FM :=
  let m := x.m - 1
  if m = 0 then mkFM (x.fy - 1) 12 else mkFM x.fy m

/-- `FiscalMonth.end`: the start of the next fiscal month minus one
second. -/
def fmEnd (c : Config) (x : FM) : Except PyErr DateTime := do
  let n ← nextFM x
  let s ← fmStart c n
  subOneSecondChecked s

/-- `FiscalDay.start`: `FiscalYear(fy).start + timedelta(days = d - 1)`,
re-wrapped through the `FiscalDateTime` constructor (Python's date
addition overflows past `MAXYEAR`, surfacing as an error either way). -/
def fdStart (c : Config) (x : FD) : Except PyErr DateTime := do
  let s ← fyStart c x.fy
  let d := Nat.iterate nextDay (x.d - 1).toNat s.toDate
  mkFiscalDateTime d.year d.month d.day 0 0 0

/-- `FiscalDay.next_fiscal_day`: try `_check_fiscal_day(fy, d + 1)`,
falling back to `(fy + 1, 1)` on `ValueError`, then the `FiscalDay`
constructor. -/
def nextFD (c : Config) (x : FD) : Except PyErr FD :=
  match checkFiscalDay c x.fy (x.d + 1) with
  | .ok d => mkFD c x.fy d
  | .error _ => mkFD c (x.fy + 1) 1

/-- `FiscalDay.prev_fiscal_day`: `d - 1`; at `0`, borrow the last day of
`fy - 1`, trying `366` then `365`; then the `FiscalDay` constructor. -/
def prevFD (c : Config) (x : FD) : Except PyErr FD := do
  if x.d - 1 = 0 then
    let y := x.fy - 1
    let d ← match checkFiscalDay c y 366 with
      | .ok d => pure d
      | .error _ => checkFiscalDay c y 365
    mkFD c y d
  else mkFD c x.fy (x.d - 1)

/-- `FiscalDay.end`: the start of the next fiscal day minus one second. -/
def fdEnd (c : Config) (x : FD) : Except PyErr DateTime := do
  let n ← nextFD c x
  let s ← fdStart c n
  subOneSecondChecked s

/-- A runtime value appearing as the other operand of a comparison or
containment test: one of the four period types, a datetime, a date, or
any other Python object. -/
inductive Operand where
  | year (a : FY) : Operand
  | quarter (a : FQ) : Operand
  | month (a : FM) : Operand
  | day (a : FD) : Operand
  | datetime (t : DateTime) : Operand
  | date (d : Date) : Operand
  | other : Operand
deriving DecidableEq, Repr

/-- Whether an operand is a `FiscalYear` instance. -/
def Operand.isYearInst : Operand → Bool
  | .year _ => true
  | _ => false

/-- Whether an operand is a `FiscalQuarter` instance. -/
def Operand.isQuarterInst : Operand → Bool
  | .quarter _ => true
  | _ => false

/-- Whether an operand is a `FiscalMonth` instance. -/
def Operand.isMonthInst : Operand → Bool
  | .month _ => true
  | _ => false

/-- Whether an operand is a `FiscalDay` instance. -/
def Operand.isDayInst : Operand → Bool
  | .day _ => true
  | _ => false

/-- Whether an operand is a `datetime.datetime` instance. -/
def Operand.isDateTimeInst : Operand → Bool
  | .datetime _ => true
  | _ => false

/-- Whether an operand is a `datetime.date` instance (in Python,
`datetime.datetime` is a subclass of `datetime.date`; the `isinstance`
chains in the library always test `datetime` first, so the two classifiers
here are used disjointly). -/
def Operand.isDateInst : Operand → Bool
  | .date _ => true
  | _ => false

/-- `FiscalYear.__lt__`: same-type comparison by label, else `TypeError`. -/
def fyLt (a : FY) : Operand → Except PyErr Bool
  | .year b => .ok (decide (a.fy < b.fy))
  | _ => .error .typeError

/-- `FiscalYear.__le__`: same-type comparison by label, else `TypeError`. -/
def fyLe (a : FY) : Operand → Except PyErr Bool
  | .year b => .ok (decide (a.fy ≤ b.fy))
  | _ => .error .typeError

/-- `FiscalYear.__eq__`: same-type equality by label, else `TypeError`. -/
def fyEq (a : FY) : Operand → Except PyErr Bool
  | .year b => .ok (decide (a.fy = b.fy))
  | _ => .error .typeError

/-- `FiscalYear.__ne__`: same-type disequality by label, else `TypeError`. -/
def fyNe (a : FY) : Operand → Except PyErr Bool
  | .year b => .ok (decide (a.fy ≠ b.fy))
  | _ => .error .typeError

/-- `FiscalYear.__gt__`: same-type comparison by label, else `TypeError`. -/
def fyGt (a : FY) : Operand → Except PyErr Bool
  | .year b => .ok (decide (a.fy > b.fy))
  | _ => .error .typeError

/-- `FiscalYear.__ge__`: same-type comparison by label, else `TypeError`. -/
def fyGe (a : FY) : Operand → Except PyErr Bool
  | .year b => .ok (decide (a.fy ≥ b.fy))
  | _ => .error .typeError

/-- `FiscalQuarter.__lt__`: lexicographic on `(fy, q)`, else `TypeError`. -/
def fqLt (a : FQ) : Operand → Except PyErr Bool
  | .quarter b => .ok (decide (a.fy < b.fy ∨ (a.fy = b.fy ∧ a.q < b.q)))
  | _ => .error .typeError

/-- `FiscalQuarter.__le__`: lexicographic on `(fy, q)`, else `TypeError`. -/
def fqLe (a : FQ) : Operand → Except PyErr Bool
  | .quarter b =>
      .ok (decide (a.fy < b.fy ∨ (a.fy = b.fy ∧ a.q ≤ b.q)))
  | _ => .error .typeError

/-- `FiscalQuarter.__eq__`: pair equality, else `TypeError`. -/
def fqEq (a : FQ) : Operand → Except PyErr Bool
  | .quarter b => .ok (decide (a.fy = b.fy ∧ a.q = b.q))
  | _ => .error .typeError

/-- `FiscalQuarter.__ne__`: pair disequality, else `TypeError`. -/
def fqNe (a : FQ) : Operand → Except PyErr Bool
  | .quarter b => .ok (decide (¬(a.fy = b.fy ∧ a.q = b.q)))
  | _ => .error .typeError

/-- `FiscalQuarter.__gt__`: lexicographic on `(fy, q)`, else `TypeError`. -/
def fqGt (a : FQ) : Operand → Except PyErr Bool
  | .quarter b => .ok (decide (b.fy < a.fy ∨ (b.fy = a.fy ∧ b.q < a.q)))
  | _ => .error .typeError

/-- `FiscalQuarter.__ge__`: lexicographic on `(fy, q)`, else `TypeError`. -/
def fqGe (a : FQ) : Operand → Except PyErr Bool
  | .quarter b =>
      .ok (decide (b.fy < a.fy ∨ (b.fy = a.fy ∧ b.q ≤ a.q)))
  | _ => .error .typeError

/-- `FiscalMonth.__lt__`: lexicographic on `(fy, m)`, else `TypeError`. -/
def fmLt (a : FM) : Operand → Except PyErr Bool
  | .month b => .ok (decide (a.fy < b.fy ∨ (a.fy = b.fy ∧ a.m < b.m)))
  | _ => .error .typeError

/-- `FiscalMonth.__le__`: lexicographic on `(fy, m)`, else `TypeError`. -/
def fmLe (a : FM) : Operand → Except PyErr Bool
  | .month b =>
      .ok (decide (a.fy < b.fy ∨ (a.fy = b.fy ∧ a.m ≤ b.m)))
  | _ => .error .typeError

/-- `FiscalMonth.__eq__`: pair equality, else `TypeError`. -/
def fmEq (a : FM) : Operand → Except PyErr Bool
  | .month b => .ok (decide (a.fy = b.fy ∧ a.m = b.m))
  | _ => .error .typeError

/-- `FiscalMonth.__ne__`: pair disequality, else `TypeError`. -/
def fmNe (a : FM) : Operand → Except PyErr Bool
  | .month b => .ok (decide (¬(a.fy = b.fy ∧ a.m = b.m)))
  | _ => .error .typeError

/-- `FiscalMonth.__gt__`: lexicographic on `(fy, m)`, else `TypeError`. -/
def fmGt (a : FM) : Operand → Except PyErr Bool
  | .month b => .ok (decide (b.fy < a.fy ∨ (b.fy = a.fy ∧ b.m < a.m)))
  | _ => .error .typeError

/-- `FiscalMonth.__ge__`: lexicographic on `(fy, m)`, else `TypeError`. -/
def fmGe (a : FM) : Operand → Except PyErr Bool
  | .month b =>
      .ok (decide (b.fy < a.fy ∨ (b.fy = a.fy ∧ b.m ≤ a.m)))
  | _ => .error .typeError

/-- `FiscalDay.__lt__`: lexicographic on `(fy, d)`, else `TypeError`. -/
def fdLt (a : FD) : Operand → Except PyErr Bool
  | .day b => .ok (decide (a.fy < b.fy ∨ (a.fy = b.fy ∧ a.d < b.d)))
  | _ => .error .typeError

/-- `FiscalDay.__le__`: lexicographic on `(fy, d)`, else `TypeError`. -/
def fdLe (a : FD) : Operand → Except PyErr Bool
  | .day b =>
      .ok (decide (a.fy < b.fy ∨ (a.fy = b.fy ∧ a.d ≤ b.d)))
  | _ => .error .typeError

/-- `FiscalDay.__eq__`: pair equality, else `TypeError`. -/
def fdEq (a : FD) : Operand → Except PyErr Bool
  | .day b => .ok (decide (a.fy = b.fy ∧ a.d = b.d))
  | _ => .error .typeError

/-- `FiscalDay.__ne__`: pair disequality, else `TypeError`. -/
def fdNe (a : FD) : Operand → Except PyErr Bool
  | .day b => .ok (decide (¬(a.fy = b.fy ∧ a.d = b.d)))
  | _ => .error .typeError

/-- `FiscalDay.__gt__`: lexicographic on `(fy, d)`, else `TypeError`. -/
def fdGt (a : FD) : Operand → Except PyErr Bool
  | .day b => .ok (decide (b.fy < a.fy ∨ (b.fy = a.fy ∧ b.d < a.d)))
  | _ => .error .typeError

/-- `FiscalDay.__ge__`: lexicographic on `(fy, d)`, else `TypeError`. -/
def fdGe (a : FD) : Operand → Except PyErr Bool
  | .day b =>
      .ok (decide (b.fy < a.fy ∨ (b.fy = a.fy ∧ b.d ≤ a.d)))
  | _ => .error .typeError

/-- `FiscalYear.__contains__`: same type by equality; `FiscalQuarter`,
`FiscalMonth`, `FiscalDay` by fiscal-year label equality; datetimes and
dates by `start <= item <= end` (with Python's short-circuiting chained
comparison); anything else raises `TypeError`. -/
def fyContains (c : Config) (a : FY) : Operand → Except PyErr Bool
  | .year b => .ok (decide (a.fy = b.fy))
  | .quarter b => .ok (decide (a.fy = b.fy))
  | .month b => .ok (decide (a.fy = b.fy))
  | .day b => .ok (decide (a.fy = b.fy))
  | .datetime t => do
      let s ← fyStart c a.fy
      if dtLe s t then do
        let e ← fyEnd c a.fy
        .ok (decide (dtLe t e))
      else .ok false
  | .date d => do
      let s ← fyStart c a.fy
      if dateLe s.toDate d then do
        let e ← fyEnd c a.fy
        .ok (decide (dateLe d e.toDate))
      else .ok false
  | .other => .error .typeError

/-- `FiscalQuarter.__contains__`: same type by equality; `FiscalMonth` and
`FiscalDay` by `self.start <= item.start and item.end <= self.end`;
datetimes and dates by `start <= item <= end`; else `TypeError`. -/
def fqContains (c : Config) (a : FQ) : Operand → Except PyErr Bool
  | .quarter b => .ok (decide (a.fy = b.fy ∧ a.q = b.q))
  | .month b => do
      let s ← fqStart c a
      let bs ← fmStart c b
      if dtLe s bs then do
        let be ← fmEnd c b
        let e ← fqEnd c a
        .ok (decide (dtLe be e))
      else .ok false
  | .day b => do
      let s ← fqStart c a
      let bs ← fdStart c b
      if dtLe s bs then do
        let be ← fdEnd c b
        let e ← fqEnd c a
        .ok (decide (dtLe be e))
      else .ok false
  | .datetime t => do
      let s ← fqStart c a
      if dtLe s t then do
        let e ← fqEnd c a
        .ok (decide (dtLe t e))
      else .ok false
  | .date d => do
      let s ← fqStart c a
      if dateLe s.toDate d then do
        let e ← fqEnd c a
        .ok (decide (dateLe d e.toDate))
      else .ok false
  | _ => .error .typeError

/-- `FiscalMonth.__contains__`: same type by equality; `FiscalDay` by the
chained `self.start <= item.start <= item.end <= self.end`; datetimes and
dates by `start <= item <= end`; else `TypeError`. -/
def fmContains (c : Config) (a : FM) : Operand → Except PyErr Bool
  | .month b => .ok (decide (a.fy = b.fy ∧ a.m = b.m))
  | .day b => do
      let s ← fmStart c a
      let bs ← fdStart c b
      if dtLe s bs then do
        let be ← fdEnd c b
        if dtLe bs be then do
          let e ← fmEnd c a
          .ok (decide (dtLe be e))
        else .ok false
      else .ok false
  | .datetime t => do
      let s ← fmStart c a
      if dtLe s t then do
        let e ← fmEnd c a
        .ok (decide (dtLe t e))
      else .ok false
  | .date d => do
      let s ← fmStart c a
      if dateLe s.toDate d then do
        let e ← fmEnd c a
        .ok (decide (dateLe d e.toDate))
      else .ok false
  | _ => .error .typeError

/-- `FiscalDay.__contains__`: same type by equality; datetimes and dates
by `start <= item <= end`; else `TypeError`. -/
def fdContains (c : Config) (a : FD) : Operand → Except PyErr Bool
  | .day b => .ok (decide (a.fy = b.fy ∧ a.d = b.d))
  | .datetime t => do
      let s ← fdStart c a
      if dtLe s t then do
        let e ← fdEnd c a
        .ok (decide (dtLe t e))
      else .ok false
  | .date d => do
      let s ← fdStart c a
      if dateLe s.toDate d then do
        let e ← fdEnd c a
        .ok (decide (dateLe d e.toDate))
      else .ok false
  | _ => .error .typeError

/-- A moment wrapped by `FiscalDateTime` or `FiscalDate`. -/
inductive Moment where
  | datetime (t : DateTime) : Moment
  | date (d : Date) : Moment
deriving DecidableEq, Repr

/-- The calendar-year attribute of a moment. -/
def Moment.year : Moment → Int
  | .datetime t => t.year
  | .date d => d.year

/-- The calendar-date component of a moment. -/
def Moment.toDate : Moment → Date
  | .datetime t => t.toDate
  | .date d => d

/-- A moment viewed as a containment operand. -/
def Moment.toOperand : Moment → Operand
  | .datetime t => .datetime t
  | .date d => .date d

/-- A structurally valid representable moment. -/
def validMoment : Moment → Prop
  | .datetime t => validDateTime t
  | .date d => validDate d

instance (m : Moment) : Decidable (validMoment m) := by
  cases m <;> (unfold validMoment; infer_instance)

/-- `_FiscalBase.fiscal_year`: probe `FiscalYear(year)`,
`FiscalYear(year + 1)`, `FiscalYear(year - 1)` for containment, returning
the first match (`None` — here `Option.none` — when all three fail). -/
def fiscalYearOf (c : Config) (m : Moment) : Except PyErr (Option Int) := do
  let y := m.year
  let a1 ← mkFY y
  let b1 ← fyContains c a1 m.toOperand
  if b1 then .ok (some y)
  else do
    let a2 ← mkFY (y + 1)
    let b2 ← fyContains c a2 m.toOperand
    if b2 then .ok (some (y + 1))
    else do
      let a3 ← mkFY (y - 1)
      let b3 ← fyContains c a3 m.toOperand
      if b3 then .ok (some (y - 1))
      else .ok none

/-! ### Specification-side definitions, for comparison with the code -/

/-- The specified quarter start month:
`((start_month - 1) + (q - 1) * 3) mod 12 + 1`. -/
def specStartMonth (sm q : Int) : Int :=
  (sm - 1 + (q - 1) * 3) % 12 + 1

/-- The specified quarter start calendar year: `fy - 1` under
`PreviousCalendarYear` labeling else `fy`, incremented by one when the
computed month precedes `start_month`. -/
def specStartYear (c : Config) (fy q : Int) : Int :=
  (match c.startYear with
    | .previous => fy - 1
    | .same => fy) +
  (if specStartMonth c.startMonth q < c.startMonth then 1 else 0)

/-- The specified quarter start day:
`min(start_day, last_day_of_month(year, month))`. -/
def specStartDay (c : Config) (fy q : Int) : Int :=
  min c.startDay
    (monthLength (specStartYear c fy q) (specStartMonth c.startMonth q))

/-- The leap-table of the specification read literally: the base calendar
year of the potential leap day is selected by whether the fiscal year's
start falls on or before March 1st of its calendar year (for comparison
with `fyIsLeap`, which tests `(start.month, start.day) < (3, 1)`, i.e.
strictly before March 1st). -/
def specIsLeapClaim (c : Config) (fy : Int) : Except PyErr Bool := do
  let s ← fyStart c fy
  let startsOnOrBeforeMarchFirst : Bool :=
    decide (dateLe s.toDate ⟨s.year, 3, 1⟩)
  let calendarYear := match c.startYear with
    | .previous => if startsOnOrBeforeMarchFirst then fy - 1 else fy
    | .same => if startsOnOrBeforeMarchFirst then fy else fy + 1
  .ok (isGregorianLeap calendarYear)

/-! ### Order and calendar arithmetic lemmas -/

theorem monthLength_bounds {y m : Int} (h1 : 1 ≤ m) (h2 : m ≤ 12) :
    28 ≤ monthLength y m ∧ monthLength y m ≤ 31 := by
  interval_cases m <;> simp only [monthLength] <;> norm_num <;>
    cases isGregorianLeap y <;> norm_num

theorem monthLength_december (y : Int) : monthLength y 12 = 31 := by
  norm_num [monthLength]

theorem dateLt_irrefl (a : Date) : ¬ dateLt a a := by
  unfold dateLt; omega

theorem dateLe_refl (a : Date) : dateLe a a := .inr rfl

theorem dateLe_of_lt {a b : Date} (h : dateLt a b) : dateLe a b := .inl h

theorem dateLt_trans {a b c : Date} (h1 : dateLt a b) (h2 : dateLt b c) :
    dateLt a c := by
  cases a; cases b; cases c
  simp only [dateLt] at *
  omega

theorem dateLt_of_lt_of_le {a b c : Date} (h1 : dateLt a b)
    (h2 : dateLe b c) : dateLt a c := by
  rcases h2 with h2 | rfl
  · exact dateLt_trans h1 h2
  · exact h1

theorem dateLt_of_le_of_lt {a b c : Date} (h1 : dateLe a b)
    (h2 : dateLt b c) : dateLt a c := by
  rcases h1 with h1 | rfl
  · exact dateLt_trans h1 h2
  · exact h2

theorem dateLe_trans {a b c : Date} (h1 : dateLe a b) (h2 : dateLe b c) :
    dateLe a c := by
  rcases h1 with h1 | rfl
  · exact dateLe_of_lt (dateLt_of_lt_of_le h1 h2)
  · exact h2

theorem dateLe_total_or (a b : Date) : dateLe a b ∨ dateLt b a := by
  cases a; cases b
  simp only [dateLe, dateLt, Date.mk.injEq]
  omega

theorem not_dateLe_of_lt {a b : Date} (h : dateLt a b) : ¬ dateLe b a := by
  intro hle
  exact dateLt_irrefl a (dateLt_of_lt_of_le h hle)

theorem dateLt_le_le_false {a b c : Date} (h1 : dateLt a b)
    (h2 : dateLe b c) (h3 : dateLe c a) : False :=
  dateLt_irrefl a (dateLt_of_lt_of_le (dateLt_of_lt_of_le h1 h2) h3)

theorem prevDay_lt (d : Date) : dateLt (prevDay d) d := by
  cases d with
  | mk y m day =>
      simp only [prevDay, dateLt]
      split_ifs <;> simp <;> omega

/-- Validity of the calendar predecessor, provided it does not fall off the
low end of the representable range. -/
theorem prevDay_valid {d : Date} (h : validDate d)
    (hy : 1 ≤ (prevDay d).year) : validDate (prevDay d) := by
  cases d with
  | mk y m day =>
      obtain ⟨h1, h2, h3, h4, h5, h6⟩ := h
      simp only at h1 h2 h3 h4 h5 h6
      simp only [prevDay] at hy ⊢
      split_ifs at hy ⊢ with hd hm
      · simp only at hd
        exact ⟨h1, h2, h3, h4, show 1 ≤ day - 1 by omega,
          show day - 1 ≤ monthLength y m by omega⟩
      · simp only at hd hm
        have hb := monthLength_bounds (y := y) (m := m - 1)
          (by omega) (by omega)
        exact ⟨h1, h2, show 1 ≤ m - 1 by omega, show m - 1 ≤ 12 by omega,
          show 1 ≤ monthLength y (m - 1) by omega, le_refl _⟩
      · have hy' : 1 ≤ y - 1 := hy
        exact ⟨hy', show y - 1 ≤ 9999 by omega,
          show (1 : Int) ≤ 12 by norm_num, show (12 : Int) ≤ 12 by norm_num,
          show (1 : Int) ≤ 31 by norm_num,
          show (31 : Int) ≤ monthLength (y - 1) 12 by
            rw [monthLength_december]⟩

theorem nextDay_gt (d : Date) : dateLt d (nextDay d) := by
  cases d with
  | mk y m day =>
      simp only [nextDay, dateLt]
      split_ifs <;> simp <;> omega

/-- The calendar successor inverts the calendar predecessor on valid
dates. -/
theorem nextDay_prevDay {d : Date} (h : validDate d) :
    nextDay (prevDay d) = d := by
  cases d with
  | mk y m day =>
      obtain ⟨h1, h2, h3, h4, h5, h6⟩ := h
      simp only at h1 h2 h3 h4 h5 h6
      simp only [prevDay]
      split_ifs with hd hm
      · simp only at hd
        simp only [nextDay]
        split_ifs with p1 p2
        · rw [(by omega : day - 1 + 1 = day)]
        · exfalso; simp only at p1; omega
        · exfalso; simp only at p1; omega
      · simp only at hd hm
        simp only [nextDay]
        split_ifs with p1 p2
        · exfalso; simp only at p1; omega
        · congr 1 <;> omega
        · exfalso; simp only at p2; omega
      · simp only at hd hm
        simp only [nextDay]
        split_ifs with p1 p2
        · exfalso; simp only [monthLength_december] at p1; omega
        · exfalso; simp only at p2; omega
        · congr 1 <;> omega

/-- Discreteness of the calendar order: a valid date strictly before `b`
is at most the calendar predecessor of `b`. -/
theorem dateLe_prevDay_iff {a b : Date} (ha : validDate a) :
    dateLe a (prevDay b) ↔ dateLt a b := by
  constructor
  · intro h
    exact dateLt_of_le_of_lt h (prevDay_lt b)
  · intro h
    obtain ⟨a1, a2, a3, a4, a5, a6⟩ := ha
    cases a with
    | mk ay am ad =>
        cases b with
        | mk yy ym yd =>
            simp only at a1 a2 a3 a4 a5 a6
            simp only [dateLt] at h
            simp only [prevDay]
            split_ifs with hd hm
            · simp only [dateLe, dateLt, Date.mk.injEq] at h ⊢
              omega
            · simp only at hd hm
              simp only [dateLe, dateLt, Date.mk.injEq]
              rcases h with h | ⟨rfl, h⟩
              · left; left; exact h
              · rcases h with h | ⟨rfl, h⟩
                · rcases lt_or_le am (ym - 1) with h2 | h2
                  · left; right; exact ⟨rfl, by left; omega⟩
                  · have ham : am = ym - 1 := by omega
                    subst ham
                    rcases lt_or_eq_of_le a6 with h3 | h3
                    · left; right; exact ⟨rfl, by right; exact ⟨rfl, h3⟩⟩
                    · right; exact ⟨rfl, rfl, h3⟩
                · omega
            · simp only at hd hm
              simp only [dateLe, dateLt, Date.mk.injEq]
              rcases h with h | ⟨rfl, h⟩
              · rcases lt_or_le ay (yy - 1) with h2 | h2
                · left; left; omega
                · have hay : ay = yy - 1 := by omega
                  subst hay
                  rcases lt_or_eq_of_le a4 with h3 | h3
                  · left; right; exact ⟨rfl, by left; omega⟩
                  · subst h3
                    rw [monthLength_december] at a6
                    rcases lt_or_eq_of_le a6 with h4 | h4
                    · left; right; exact ⟨rfl, by right; exact ⟨rfl, h4⟩⟩
                    · right; exact ⟨rfl, rfl, h4⟩
              · omega

/-! ### Midnight datetimes, one-second arithmetic -/

theorem subOneSecond_midnight (s : Date) :
    subOneSecond s.atMidnight =
      ⟨(prevDay s).year, (prevDay s).month, (prevDay s).day, 23, 59, 59⟩ := by
  cases s with
  | mk y m day =>
      simp [subOneSecond, Date.atMidnight, DateTime.toDate]

/-- Adding back one second to `midnight - 1s` recovers midnight of a valid
date. -/
theorem addOneSecond_subOneSecond_midnight {s : Date} (h : validDate s) :
    addOneSecond (subOneSecond s.atMidnight) = s.atMidnight := by
  rw [subOneSecond_midnight]
  simp only [addOneSecond]
  norm_num
  have hn := nextDay_prevDay h
  simp only [DateTime.toDate, Date.atMidnight]
  rw [(rfl : (⟨(prevDay s).year, (prevDay s).month, (prevDay s).day⟩ : Date)
      = prevDay s), hn]

/-- For a valid datetime `t`, `midnight(s) ≤ t` iff `s ≤ t.date()`:
component-lexicographic comparison against a midnight reduces to the date
components. -/
theorem midnight_dtLe_iff {s : Date} {t : DateTime} (ht : validDateTime t) :
    dtLe s.atMidnight t ↔ dateLe s t.toDate := by
  obtain ⟨⟨v1, v2, v3, v4, v5, v6⟩, w1, w2, w3, w4, w5, w6⟩ := ht
  cases s with
  | mk y m day =>
      cases t with
      | mk ty tm td th tmi ts =>
          simp only [DateTime.toDate] at *
          simp only [Date.atMidnight, dtLe, dtLt, dateLe, dateLt,
            DateTime.mk.injEq, Date.mk.injEq]
          omega

/-- For a valid datetime `t`, `t ≤ midnight(s) - 1s` iff
`t.date() ≤ prevDay s`. -/
theorem dtLe_subOneSecond_midnight_iff {s : Date} {t : DateTime}
    (ht : validDateTime t) :
    dtLe t (subOneSecond s.atMidnight) ↔ dateLe t.toDate (prevDay s) := by
  obtain ⟨⟨v1, v2, v3, v4, v5, v6⟩, w1, w2, w3, w4, w5, w6⟩ := ht
  rw [subOneSecond_midnight]
  generalize prevDay s = p
  cases p with
  | mk py pm pd =>
      cases t with
      | mk ty tm td th tmi ts =>
          simp only [DateTime.toDate] at *
          simp only [dtLe, dtLt, dateLe, dateLt, DateTime.mk.injEq,
            Date.mk.injEq]
          omega

/-- Containment of a valid datetime in `[midnight a, midnight b - 1s]`
is containment of its date in `[a, b)`. -/
theorem dtMem_interval_iff {a b : Date} {t : DateTime}
    (ht : validDateTime t) :
    (dtLe a.atMidnight t ∧ dtLe t (subOneSecond b.atMidnight)) ↔
      (dateLe a t.toDate ∧ dateLt t.toDate b) := by
  rw [midnight_dtLe_iff ht, dtLe_subOneSecond_midnight_iff ht,
    dateLe_prevDay_iff ht.1]

/-! ### Except-monad computation helpers -/

theorem ok_bind {α β : Type} (a : α) (f : α → Except PyErr β) :
    (do let x ← Except.ok a; f x) = f a := rfl

theorem error_bind {α β : Type} (e : PyErr) (f : α → Except PyErr β) :
    (do let x ← (Except.error e : Except PyErr α); f x) = Except.error e :=
  rfl

theorem checkYear_ok {y : Int} (h1 : 1 ≤ y) (h2 : y ≤ 9999) :
    checkYear y = .ok y := by
  simp only [checkYear, if_pos (⟨h1, h2⟩ : 1 ≤ y ∧ y ≤ 9999)]

theorem checkQuarter_ok {q : Int} (h1 : 1 ≤ q) (h2 : q ≤ 4) :
    checkQuarter q = .ok q := by
  simp only [checkQuarter, if_pos (⟨h1, h2⟩ : 1 ≤ q ∧ q ≤ 4)]

/-! ### Quarter boundary lemmas -/

theorem quarterStartMonth_bounds (sm q : Int) :
    1 ≤ quarterStartMonth sm q ∧ quarterStartMonth sm q ≤ 12 := by
  have h1 : 0 ≤ (sm + (q - 1) * 3) % 12 :=
    Int.emod_nonneg _ (by norm_num)
  have h2 : (sm + (q - 1) * 3) % 12 < 12 :=
    Int.emod_lt_of_pos _ (by norm_num)
  unfold quarterStartMonth
  split_ifs <;> omega

theorem quarterStartMonth_one {sm : Int} (h1 : 1 ≤ sm) (h2 : sm ≤ 12) :
    quarterStartMonth sm 1 = sm := by
  interval_cases sm <;> decide

theorem quarterStartYear_bounds {c : Config} (fy q : Int) :
    fy - 1 ≤ quarterStartYear c fy q ∧ quarterStartYear c fy q ≤ fy + 1 := by
  unfold quarterStartYear
  rcases c with ⟨sy, sm, sd⟩
  cases sy <;> simp only <;> split_ifs <;> omega

/-- The start of the first fiscal quarter never wraps: its calendar year is
`fy - 1` under `'previous'` labeling and `fy` under `'same'` labeling. -/
theorem quarterStartYear_one {c : Config} (hc : validConfig c) (fy : Int) :
    quarterStartYear c fy 1 =
      (match c.startYear with | .previous => fy - 1 | .same => fy) := by
  obtain ⟨c1, c2, c3, c4⟩ := hc
  unfold quarterStartYear
  rw [quarterStartMonth_one c1 c2, if_neg (lt_irrefl c.startMonth)]
  omega

theorem quarterStartDate_valid {c : Config} (hc : validConfig c)
    {y q : Int} (hy1 : 1 ≤ quarterStartYear c y q)
    (hy2 : quarterStartYear c y q ≤ 9999) :
    validDate (quarterStartDate c y q) := by
  obtain ⟨c1, c2, c3, c4⟩ := hc
  have hm := quarterStartMonth_bounds c.startMonth q
  have hl := monthLength_bounds (y := quarterStartYear c y q)
    (m := quarterStartMonth c.startMonth q) hm.1 hm.2
  exact ⟨hy1, hy2, hm.1, hm.2,
    show 1 ≤ quarterStartDay c y q by
      unfold quarterStartDay
      omega,
    show quarterStartDay c y q ≤ _ by
      unfold quarterStartDay
      exact min_le_right _ _⟩

/-- Evaluation of `FiscalQuarter.start` when the computed calendar year is
representable. -/
theorem fqStart_eq {c : Config} (hc : validConfig c) {y q : Int}
    (hy1 : 1 ≤ quarterStartYear c y q)
    (hy2 : quarterStartYear c y q ≤ 9999) :
    fqStart c ⟨y, q⟩ = .ok (quarterStartDate c y q).atMidnight := by
  have hv := quarterStartDate_valid hc hy1 hy2
  unfold fqStart mkFiscalDateTime
  rw [if_pos]
  · rfl
  · exact ⟨hv, by norm_num, by norm_num, by norm_num, by norm_num,
      by norm_num, by norm_num⟩

theorem quarterStartMonth_pattern {sm q : Int} (h1 : 1 ≤ sm) (h2 : sm ≤ 12)
    (hq1 : 1 ≤ q) (hq3 : q ≤ 3) :
    ((quarterStartMonth sm q < sm ↔ quarterStartMonth sm (q + 1) < sm) ∧
      quarterStartMonth sm q < quarterStartMonth sm (q + 1)) ∨
    (¬ quarterStartMonth sm q < sm ∧ quarterStartMonth sm (q + 1) < sm) := by
  interval_cases sm <;> interval_cases q <;> decide

theorem quarterStartMonth_ge_two {sm q : Int} (h1 : 1 ≤ sm) (h2 : sm ≤ 12)
    (hq2 : 2 ≤ q) (hq4 : q ≤ 4) :
    quarterStartMonth sm q < sm ∨ 2 ≤ quarterStartMonth sm q := by
  interval_cases sm <;> interval_cases q <;> decide

/-- Within one fiscal year, consecutive quarter starts are strictly
increasing calendar dates. -/
theorem quarterStartDate_lt_succ {c : Config} (hc : validConfig c)
    (fy : Int) {q : Int} (hq1 : 1 ≤ q) (hq3 : q ≤ 3) :
    dateLt (quarterStartDate c fy q) (quarterStartDate c fy (q + 1)) := by
  obtain ⟨c1, c2, c3, c4⟩ := hc
  have hp := quarterStartMonth_pattern c1 c2 hq1 hq3
  rcases c with ⟨sy, sm, sd⟩
  simp only at c1 c2 c3 c4 hp
  simp only [quarterStartDate, quarterStartYear, dateLt]
  cases sy <;> (try dsimp only) <;>
    rcases hp with ⟨hiff, hlt⟩ | ⟨hnf, hf⟩ <;> split_ifs <;> omega

/-- The fourth quarter of a fiscal year starts strictly before the first
quarter of the next fiscal year. -/
theorem quarterStartDate_q4_lt_next {c : Config} (hc : validConfig c)
    (fy : Int) :
    dateLt (quarterStartDate c fy 4) (quarterStartDate c (fy + 1) 1) := by
  obtain ⟨c1, c2, c3, c4⟩ := hc
  have h1 := quarterStartMonth_one c1 c2
  rcases c with ⟨sy, sm, sd⟩
  simp only at c1 c2 h1
  simp only [quarterStartDate, quarterStartYear, dateLt, h1]
  cases sy <;> (try dsimp only) <;> split_ifs <;> omega

/-- First-quarter starts are strictly increasing over fiscal years. -/
theorem quarterStartDate_one_lt_next {c : Config} (hc : validConfig c)
    (fy : Int) :
    dateLt (quarterStartDate c fy 1) (quarterStartDate c (fy + 1) 1) := by
  have h12 := quarterStartDate_lt_succ hc fy (q := 1) (by norm_num)
    (by norm_num)
  have h23 := quarterStartDate_lt_succ hc fy (q := 2) (by norm_num)
    (by norm_num)
  have h34 := quarterStartDate_lt_succ hc fy (q := 3) (by norm_num)
    (by norm_num)
  have h45 := quarterStartDate_q4_lt_next hc fy
  norm_num at h12 h23 h34
  exact dateLt_trans h12 (dateLt_trans h23 (dateLt_trans h34 h45))

theorem subOneSecondChecked_midnight {s : Date} (h1 : 1 ≤ s.year)
    (h : 2 ≤ s.year ∨ 2 ≤ s.month) :
    subOneSecondChecked s.atMidnight = .ok (subOneSecond s.atMidnight) := by
  have hy : 1 ≤ (subOneSecond s.atMidnight).year := by
    rw [subOneSecond_midnight]
    show 1 ≤ (prevDay s).year
    cases s with
    | mk y m day =>
        simp only at h1 h
        simp only [prevDay]
        split_ifs with hd hm
        · show 1 ≤ y
          omega
        · show 1 ≤ y
          omega
        · show 1 ≤ y - 1
          simp only at hm
          omega
  unfold subOneSecondChecked
  rw [if_pos hy]

theorem quarterStartDate_not_min {c : Config} (hc : validConfig c)
    {fy q : Int} (h2 : 2 ≤ fy) (hq2 : 2 ≤ q) (hq4 : q ≤ 4) :
    2 ≤ (quarterStartDate c fy q).year ∨
      2 ≤ (quarterStartDate c fy q).month := by
  obtain ⟨c1, c2, c3, c4⟩ := hc
  have hg := quarterStartMonth_ge_two c1 c2 hq2 hq4
  rcases c with ⟨sy, sm, sd⟩
  simp only at c1 c2 hg
  simp only [quarterStartDate, quarterStartYear]
  cases sy <;> (try dsimp only) <;> split_ifs with hf <;> omega

theorem quarterStartYear_next1 {c : Config} (hc : validConfig c) (fy : Int) :
    fy ≤ quarterStartYear c (fy + 1) 1 ∧
      quarterStartYear c (fy + 1) 1 ≤ fy + 1 := by
  have h := quarterStartYear_one hc (fy + 1)
  rw [h]
  rcases c with ⟨sy, sm, sd⟩
  cases sy <;> (try dsimp only) <;> omega

theorem nextFQ_of_lt {y q : Int} (h1 : 1 ≤ y) (h9 : y ≤ 9999)
    (hq1 : 1 ≤ q) (hq3 : q ≤ 3) : nextFQ ⟨y, q⟩ = .ok ⟨y, q + 1⟩ := by
  simp only [nextFQ]
  rw [if_neg (by omega : ¬(q + 1 = 5))]
  simp only [mkFQ, checkYear_ok h1 h9, ok_bind,
    checkQuarter_ok (by omega : 1 ≤ q + 1) (by omega : q + 1 ≤ 4)]

theorem nextFQ_of_four {y : Int} (h1 : 1 ≤ y + 1) (h9 : y + 1 ≤ 9999) :
    nextFQ ⟨y, 4⟩ = .ok ⟨y + 1, 1⟩ := by
  simp only [nextFQ]
  rw [if_pos (by norm_num : (4 : Int) + 1 = 5)]
  simp only [mkFQ, checkYear_ok h1 h9, ok_bind,
    checkQuarter_ok (by norm_num : (1 : Int) ≤ 1) (by norm_num : (1 : Int) ≤ 4)]

/-- Evaluation of `FiscalQuarter.end` away from the representable-range
boundaries: the second before the next quarter's start. -/
theorem fqEnd_eq {c : Config} (hc : validConfig c) {fy q : Int}
    (h2 : 2 ≤ fy) (h9 : fy ≤ 9998) (hq1 : 1 ≤ q) (hq4 : q ≤ 4) :
    fqEnd c ⟨fy, q⟩ =
      .ok (subOneSecond (if q = 4 then quarterStartDate c (fy + 1) 1
        else quarterStartDate c fy (q + 1)).atMidnight) := by
  by_cases h4 : q = 4
  · subst h4
    have hnext := nextFQ_of_four (y := fy) (by omega) (by omega)
    have hyb := quarterStartYear_next1 hc fy
    have hstart := fqStart_eq hc (y := fy + 1) (q := 1)
      (by omega) (by omega)
    have hnm : 2 ≤ (quarterStartDate c (fy + 1) 1).year := by
      show 2 ≤ quarterStartYear c (fy + 1) 1
      omega
    simp only [fqEnd, hnext, ok_bind, hstart, if_pos rfl]
    exact subOneSecondChecked_midnight (by omega) (Or.inl hnm)
  · have hq3 : q ≤ 3 := by omega
    have hnext := nextFQ_of_lt (y := fy) (by omega) (by omega) hq1 hq3
    have hyb := quarterStartYear_bounds (c := c) fy (q + 1)
    have hstart := fqStart_eq hc (y := fy) (q := q + 1)
      (by omega) (by omega)
    have hnm := quarterStartDate_not_min hc h2
      (by omega : 2 ≤ q + 1) (by omega : q + 1 ≤ 4)
    have hy1 : 1 ≤ (quarterStartDate c fy (q + 1)).year := by
      show 1 ≤ quarterStartYear c fy (q + 1)
      omega
    simp only [fqEnd, hnext, ok_bind, hstart, if_neg h4]
    exact subOneSecondChecked_midnight hy1 hnm

theorem toDate_atMidnight (s : Date) : s.atMidnight.toDate = s := rfl

theorem toDate_subOneSecond_midnight (s : Date) :
    (subOneSecond s.atMidnight).toDate = prevDay s := by
  rw [subOneSecond_midnight]
  rfl

theorem mkFY_ok {y : Int} (h1 : 1 ≤ y) (h2 : y ≤ 9999) :
    mkFY y = .ok ⟨y⟩ := by
  simp only [mkFY, checkYear_ok h1 h2, ok_bind]

/-- Evaluation of `FiscalYear.start` away from the low boundary. -/
theorem fyStart_eq {c : Config} (hc : validConfig c) {y : Int}
    (h2 : 2 ≤ y) (h9 : y ≤ 9999) :
    fyStart c y = .ok (quarterStartDate c y 1).atMidnight := by
  have h1 := quarterStartYear_one hc y
  have hb : 1 ≤ quarterStartYear c y 1 ∧ quarterStartYear c y 1 ≤ 9999 := by
    rw [h1]
    rcases c with ⟨sy, sm, sd⟩
    cases sy <;> (try dsimp only) <;> omega
  unfold fyStart
  simp only [mkFQ, checkYear_ok (by omega : 1 ≤ y) h9, ok_bind,
    checkQuarter_ok (by norm_num : (1 : Int) ≤ 1)
      (by norm_num : (1 : Int) ≤ 4)]
  exact fqStart_eq hc hb.1 hb.2

/-- Evaluation of `FiscalYear.end` away from the range boundaries. -/
theorem fyEnd_eq {c : Config} (hc : validConfig c) {fy : Int}
    (h2 : 2 ≤ fy) (h9 : fy ≤ 9998) :
    fyEnd c fy =
      .ok (subOneSecond (quarterStartDate c (fy + 1) 1).atMidnight) := by
  unfold fyEnd
  simp only [mkFQ, checkYear_ok (by omega : 1 ≤ fy) (by omega : fy ≤ 9999),
    ok_bind, checkQuarter_ok (by norm_num : (1 : Int) ≤ 4)
      (by norm_num : (4 : Int) ≤ 4)]
  have h := fqEnd_eq hc h2 h9 (by norm_num : (1 : Int) ≤ 4)
    (by norm_num : (4 : Int) ≤ 4)
  norm_num at h
  exact h

theorem validMoment_toDate {m : Moment} (h : validMoment m) :
    validDate m.toDate := by
  cases m with
  | datetime t => exact h.1
  | date d => exact h

/-- Characterization of `moment in FiscalYear(n)`: date-level membership in
the half-open interval between consecutive first-quarter starts. -/
theorem fyContains_moment_eq {c : Config} (hc : validConfig c) {n : Int}
    (h2 : 2 ≤ n) (h9 : n ≤ 9998) {m : Moment} (hm : validMoment m) :
    fyContains c ⟨n⟩ m.toOperand =
      .ok (decide (dateLe (quarterStartDate c n 1) m.toDate ∧
        dateLt m.toDate (quarterStartDate c (n + 1) 1))) := by
  have hs := fyStart_eq hc (y := n) (by omega) (by omega)
  have he := fyEnd_eq hc h2 h9
  have hvd := validMoment_toDate hm
  cases m with
  | datetime t =>
      have h1 := midnight_dtLe_iff (s := quarterStartDate c n 1)
        (t := t) hm
      have hub := dtLe_subOneSecond_midnight_iff
        (s := quarterStartDate c (n + 1) 1) (t := t) hm
      simp only [Moment.toOperand, fyContains, hs, ok_bind,
        Moment.toDate] at h1 hub ⊢
      by_cases hle : dtLe (quarterStartDate c n 1).atMidnight t
      · rw [if_pos hle]
        simp only [he, ok_bind]
        congr 1
        rw [decide_eq_decide]
        constructor
        · intro hx
          exact ⟨h1.mp hle, (dateLe_prevDay_iff hvd).mp (hub.mp hx)⟩
        · intro hx
          exact hub.mpr ((dateLe_prevDay_iff hvd).mpr hx.2)
      · rw [if_neg hle]
        congr 1
        symm
        rw [decide_eq_false_iff_not]
        intro hx
        exact hle (h1.mpr hx.1)
  | date d =>
      simp only [Moment.toOperand, fyContains, hs, ok_bind, Moment.toDate,
        toDate_atMidnight]
      by_cases hle : dateLe (quarterStartDate c n 1) d
      · rw [if_pos hle]
        simp only [he, ok_bind, toDate_subOneSecond_midnight]
        congr 1
        rw [decide_eq_decide]
        constructor
        · intro hx
          exact ⟨hle, (dateLe_prevDay_iff hvd).mp hx⟩
        · intro hx
          exact (dateLe_prevDay_iff hvd).mpr hx.2
      · rw [if_neg hle]
        congr 1
        symm
        rw [decide_eq_false_iff_not]
        intro hx
        exact hle hx.1

/-- Characterization of `moment in FiscalQuarter(n, q)`. -/
theorem fqContains_moment_eq {c : Config} (hc : validConfig c) {n q : Int}
    (h2 : 2 ≤ n) (h9 : n ≤ 9998) (hq1 : 1 ≤ q) (hq4 : q ≤ 4) {m : Moment}
    (hm : validMoment m) :
    fqContains c ⟨n, q⟩ m.toOperand =
      .ok (decide (dateLe (quarterStartDate c n q) m.toDate ∧
        dateLt m.toDate (if q = 4 then quarterStartDate c (n + 1) 1
          else quarterStartDate c n (q + 1)))) := by
  have hyb := quarterStartYear_bounds (c := c) n q
  have hs := fqStart_eq hc (y := n) (q := q) (by omega) (by omega)
  have he := fqEnd_eq hc h2 h9 hq1 hq4
  have hvd := validMoment_toDate hm
  cases m with
  | datetime t =>
      have h1 := midnight_dtLe_iff (s := quarterStartDate c n q)
        (t := t) hm
      have hub := dtLe_subOneSecond_midnight_iff
        (s := (if q = 4 then quarterStartDate c (n + 1) 1
          else quarterStartDate c n (q + 1))) (t := t) hm
      simp only [Moment.toOperand, fqContains, hs, ok_bind,
        Moment.toDate] at h1 hub ⊢
      by_cases hle : dtLe (quarterStartDate c n q).atMidnight t
      · rw [if_pos hle]
        simp only [he, ok_bind]
        congr 1
        rw [decide_eq_decide]
        constructor
        · intro hx
          exact ⟨h1.mp hle, (dateLe_prevDay_iff hvd).mp (hub.mp hx)⟩
        · intro hx
          exact hub.mpr ((dateLe_prevDay_iff hvd).mpr hx.2)
      · rw [if_neg hle]
        congr 1
        symm
        rw [decide_eq_false_iff_not]
        intro hx
        exact hle (h1.mpr hx.1)
  | date d =>
      simp only [Moment.toOperand, fqContains, hs, ok_bind, Moment.toDate,
        toDate_atMidnight]
      by_cases hle : dateLe (quarterStartDate c n q) d
      · rw [if_pos hle]
        simp only [he, ok_bind, toDate_subOneSecond_midnight]
        congr 1
        rw [decide_eq_decide]
        constructor
        · intro hx
          exact ⟨hle, (dateLe_prevDay_iff hvd).mp hx⟩
        · intro hx
          exact (dateLe_prevDay_iff hvd).mpr hx.2
      · rw [if_neg hle]
        congr 1
        symm
        rw [decide_eq_false_iff_not]
        intro hx
        exact hle hx.1

theorem moment_toDate_year (m : Moment) : m.toDate.year = m.year := by
  cases m <;> rfl

/-- A moment inside a fiscal year's date interval lies in exactly one of
its four quarters. -/
theorem quarter_mem_unique {c : Config} (hc : validConfig c) {n : Int}
    (h2 : 2 ≤ n) (h9 : n ≤ 9998) {m : Moment} (hm : validMoment m)
    (hlo : dateLe (quarterStartDate c n 1) m.toDate)
    (hhi : dateLt m.toDate (quarterStartDate c (n + 1) 1)) :
    ∃! q : Int, (1 ≤ q ∧ q ≤ 4) ∧
      fqContains c ⟨n, q⟩ m.toOperand = .ok true := by
  have e1 := fqContains_moment_eq hc h2 h9 (q := 1) (by norm_num)
    (by norm_num) hm
  have e2 := fqContains_moment_eq hc h2 h9 (q := 2) (by norm_num)
    (by norm_num) hm
  have e3 := fqContains_moment_eq hc h2 h9 (q := 3) (by norm_num)
    (by norm_num) hm
  have e4 := fqContains_moment_eq hc h2 h9 (q := 4) (by norm_num)
    (by norm_num) hm
  norm_num at e1 e2 e3 e4
  have c12 := quarterStartDate_lt_succ hc n (q := 1) (by norm_num)
    (by norm_num)
  have c23 := quarterStartDate_lt_succ hc n (q := 2) (by norm_num)
    (by norm_num)
  have c34 := quarterStartDate_lt_succ hc n (q := 3) (by norm_num)
    (by norm_num)
  have c45 := quarterStartDate_q4_lt_next hc n
  norm_num at c12 c23 c34
  have m1 : fqContains c ⟨n, 1⟩ m.toOperand = .ok true ↔
      (dateLe (quarterStartDate c n 1) m.toDate ∧
        dateLt m.toDate (quarterStartDate c n 2)) := by
    rw [e1]
    simp only [Except.ok.injEq, Bool.and_eq_true, decide_eq_true_eq]
  have m2 : fqContains c ⟨n, 2⟩ m.toOperand = .ok true ↔
      (dateLe (quarterStartDate c n 2) m.toDate ∧
        dateLt m.toDate (quarterStartDate c n 3)) := by
    rw [e2]
    simp only [Except.ok.injEq, Bool.and_eq_true, decide_eq_true_eq]
  have m3 : fqContains c ⟨n, 3⟩ m.toOperand = .ok true ↔
      (dateLe (quarterStartDate c n 3) m.toDate ∧
        dateLt m.toDate (quarterStartDate c n 4)) := by
    rw [e3]
    simp only [Except.ok.injEq, Bool.and_eq_true, decide_eq_true_eq]
  have m4 : fqContains c ⟨n, 4⟩ m.toOperand = .ok true ↔
      (dateLe (quarterStartDate c n 4) m.toDate ∧
        dateLt m.toDate (quarterStartDate c (n + 1) 1)) := by
    rw [e4]
    simp only [Except.ok.injEq, Bool.and_eq_true, decide_eq_true_eq]
  rcases dateLe_total_or (quarterStartDate c n 2) m.toDate with hp2 | hp2
  · rcases dateLe_total_or (quarterStartDate c n 3) m.toDate with hp3 | hp3
    · rcases dateLe_total_or (quarterStartDate c n 4) m.toDate with hp4 | hp4
      · -- fourth quarter
        refine ⟨4, ⟨⟨by norm_num, by norm_num⟩, m4.mpr ⟨hp4, hhi⟩⟩, ?_⟩
        rintro q' ⟨⟨hq1, hq4⟩, hcont⟩
        interval_cases q'
        · exact absurd ((m1.mp hcont).2)
            (fun h => dateLt_le_le_false h (dateLe_trans
              (dateLe_of_lt c23) (dateLe_of_lt c34)) hp4)
        · exact absurd ((m2.mp hcont).2)
            (fun h => dateLt_le_le_false h (dateLe_of_lt c34) hp4)
        · exact absurd ((m3.mp hcont).2)
            (fun h => dateLt_le_le_false h (dateLe_refl _) hp4)
        · rfl
      · -- third quarter
        refine ⟨3, ⟨⟨by norm_num, by norm_num⟩, m3.mpr ⟨hp3, hp4⟩⟩, ?_⟩
        rintro q' ⟨⟨hq1, hq4⟩, hcont⟩
        interval_cases q'
        · exact absurd ((m1.mp hcont).2)
            (fun h => dateLt_le_le_false h (dateLe_of_lt c23) hp3)
        · exact absurd ((m2.mp hcont).2)
            (fun h => dateLt_le_le_false h (dateLe_refl _) hp3)
        · rfl
        · exact absurd ((m4.mp hcont).1)
            (fun h => dateLt_le_le_false hp4 h (dateLe_refl _))
    · -- second quarter
      refine ⟨2, ⟨⟨by norm_num, by norm_num⟩, m2.mpr ⟨hp2, hp3⟩⟩, ?_⟩
      rintro q' ⟨⟨hq1, hq4⟩, hcont⟩
      interval_cases q'
      · exact absurd ((m1.mp hcont).2)
          (fun h => dateLt_le_le_false h (dateLe_refl _) hp2)
      · rfl
      · exact absurd ((m3.mp hcont).1)
          (fun h => dateLt_le_le_false hp3 h (dateLe_refl _))
      · exact absurd ((m4.mp hcont).1)
          (fun h => dateLt_le_le_false hp3 (dateLe_of_lt c34) h)
  · -- first quarter
    refine ⟨1, ⟨⟨by norm_num, by norm_num⟩, m1.mpr ⟨hlo, hp2⟩⟩, ?_⟩
    rintro q' ⟨⟨hq1, hq4⟩, hcont⟩
    interval_cases q'
    · rfl
    · exact absurd ((m2.mp hcont).1)
        (fun h => dateLt_le_le_false hp2 h (dateLe_refl _))
    · exact absurd ((m3.mp hcont).1)
        (fun h => dateLt_le_le_false hp2 (dateLe_of_lt c23) h)
    · exact absurd ((m4.mp hcont).1)
        (fun h => dateLt_le_le_false hp2
          (dateLe_trans (dateLe_of_lt c23) (dateLe_of_lt c34)) h)

theorem quarterStartDate_one_year {c : Config} (hc : validConfig c)
    (k : Int) : k - 1 ≤ (quarterStartDate c k 1).year ∧
      (quarterStartDate c k 1).year ≤ k := by
  show k - 1 ≤ quarterStartYear c k 1 ∧ quarterStartYear c k 1 ≤ k
  rw [quarterStartYear_one hc]
  rcases c with ⟨sy, sm, sd⟩
  cases sy <;> (try dsimp only) <;> omega

/-- C4 (amended): for every moment (date or datetime) whose calendar year
is at least two years inside the representable range, under a valid
configuration, the resolver's three-year probe
(`FiscalYear(year)`, `FiscalYear(year + 1)`, `FiscalYear(year - 1)`)
returns a fiscal year at most one away from the calendar year, the moment
is contained in that fiscal year, and it lies in exactly one of its four
quarters.  (The original claim over every moment fails at the range
edges, where the probe raises.) -/
theorem moment_resolution {c : Config} {m : Moment}
    (hc : validConfig c) (hm : validMoment m) (h3 : 3 ≤ m.year)
    (h7 : m.year ≤ 9997) :
    ∃ fy : Int,
      (fy = m.year ∨ fy = m.year + 1 ∨ fy = m.year - 1) ∧
      fiscalYearOf c m = .ok (some fy) ∧
      fyContains c ⟨fy⟩ m.toOperand = .ok true ∧
      ∃! q : Int, (1 ≤ q ∧ q ≤ 4) ∧
        fqContains c ⟨fy, q⟩ m.toOperand = .ok true := by
  have hDy := moment_toDate_year m
  have hYm := fyContains_moment_eq hc (n := m.year - 1) (by omega)
    (by omega) hm
  rw [show m.year - 1 + 1 = m.year by omega] at hYm
  have hY := fyContains_moment_eq hc (n := m.year) (by omega) (by omega) hm
  have hY1 := fyContains_moment_eq hc (n := m.year + 1) (by omega)
    (by omega) hm
  have hb1 : mkFY m.year = .ok ⟨m.year⟩ := mkFY_ok (by omega) (by omega)
  have hb2 : mkFY (m.year + 1) = .ok ⟨m.year + 1⟩ :=
    mkFY_ok (by omega) (by omega)
  have hb3 : mkFY (m.year - 1) = .ok ⟨m.year - 1⟩ :=
    mkFY_ok (by omega) (by omega)
  have hcov_lo : dateLe (quarterStartDate c (m.year - 1) 1) m.toDate := by
    have hb := quarterStartDate_one_year hc (m.year - 1)
    exact dateLe_of_lt (Or.inl (by omega))
  have hcov_hi : dateLt m.toDate (quarterStartDate c (m.year + 1 + 1) 1) := by
    have hb := quarterStartDate_one_year hc (m.year + 1 + 1)
    exact Or.inl (by omega)
  have ch1 : dateLt (quarterStartDate c m.year 1)
      (quarterStartDate c (m.year + 1) 1) :=
    quarterStartDate_one_lt_next hc _
  rcases dateLe_total_or (quarterStartDate c m.year 1) m.toDate with
    hges | hlts
  · rcases dateLe_total_or (quarterStartDate c (m.year + 1) 1) m.toDate with
      hges1 | hlt1
    · -- the moment belongs to fiscal year `m.year + 1`
      have hnX1 : ¬(dateLe (quarterStartDate c m.year 1) m.toDate ∧
          dateLt m.toDate (quarterStartDate c (m.year + 1) 1)) := by
        rintro ⟨-, hlt⟩
        exact dateLt_le_le_false hlt hges1 (dateLe_refl _)
      have hX2 : dateLe (quarterStartDate c (m.year + 1) 1) m.toDate ∧
          dateLt m.toDate (quarterStartDate c (m.year + 1 + 1) 1) :=
        ⟨hges1, hcov_hi⟩
      refine ⟨m.year + 1, Or.inr (Or.inl rfl), ?_, ?_, ?_⟩
      · simp only [fiscalYearOf, hb1, hb2, ok_bind, hY, hY1,
          decide_eq_true_eq]
        rw [if_neg hnX1, if_pos hX2]
      · rw [hY1, decide_eq_true hX2]
      · exact quarter_mem_unique hc (by omega) (by omega) hm hX2.1 hX2.2
    · -- the moment belongs to fiscal year `m.year`
      have hX1 : dateLe (quarterStartDate c m.year 1) m.toDate ∧
          dateLt m.toDate (quarterStartDate c (m.year + 1) 1) :=
        ⟨hges, hlt1⟩
      refine ⟨m.year, Or.inl rfl, ?_, ?_, ?_⟩
      · simp only [fiscalYearOf, hb1, ok_bind, hY, decide_eq_true_eq]
        rw [if_pos hX1]
      · rw [hY, decide_eq_true hX1]
      · exact quarter_mem_unique hc (by omega) (by omega) hm hges hlt1
  · -- the moment belongs to fiscal year `m.year - 1`
    have hnX1 : ¬(dateLe (quarterStartDate c m.year 1) m.toDate ∧
        dateLt m.toDate (quarterStartDate c (m.year + 1) 1)) := by
      rintro ⟨hle, -⟩
      exact dateLt_le_le_false hlts hle (dateLe_refl _)
    have hnX2 : ¬(dateLe (quarterStartDate c (m.year + 1) 1) m.toDate ∧
        dateLt m.toDate (quarterStartDate c (m.year + 1 + 1) 1)) := by
      rintro ⟨hle, -⟩
      exact dateLt_le_le_false (dateLt_trans hlts ch1) hle (dateLe_refl _)
    have hX3 : dateLe (quarterStartDate c (m.year - 1) 1) m.toDate ∧
        dateLt m.toDate (quarterStartDate c m.year 1) := ⟨hcov_lo, hlts⟩
    refine ⟨m.year - 1, Or.inr (Or.inr rfl), ?_, ?_, ?_⟩
    · simp only [fiscalYearOf, hb1, hb2, hb3, ok_bind, hY, hY1, hYm,
        decide_eq_true_eq]
      rw [if_neg hnX1, if_neg hnX2, if_pos hX3]
    · rw [hYm, decide_eq_true hX3]
    · refine quarter_mem_unique hc (by omega) (by omega) hm hX3.1 ?_
      rw [show m.year - 1 + 1 = m.year by omega]
      exact hlts

/-! ### Claim theorems -/

theorem specStartMonth_eq (sm q : Int) :
    specStartMonth sm q = quarterStartMonth sm q := by
  unfold specStartMonth quarterStartMonth
  split_ifs with h <;> omega

theorem specStartYear_eq (c : Config) (fy q : Int) :
    specStartYear c fy q = quarterStartYear c fy q := by
  unfold specStartYear quarterStartYear
  rw [specStartMonth_eq]

theorem specStartDay_eq (c : Config) (fy q : Int) :
    specStartDay c fy q = quarterStartDay c fy q := by
  unfold specStartDay quarterStartDay
  rw [specStartMonth_eq, specStartYear_eq]

/-- C1 (amended): for every valid configuration and valid `(fy, q)`,
whenever the specified calendar year
`year = (fy - 1 or fy per labeling) + wraparound` is representable,
`FiscalQuarter(fy, q).start` is the datetime
`(year, ((start_month - 1) + (q - 1) * 3) mod 12 + 1,
min(start_day, last_day_of_month), 00:00:00)`; and under config
`(start_month = 5, start_day = 31)`, `FiscalQuarter(2019, 1).start.day = 31`
and `.end.day = 30`.  (The original claim fails when the computed year
falls outside 1..9999, where `start` raises instead.) -/
theorem fiscalQuarterStart_formula :
    (∀ (c : Config) (fy q : Int), validConfig c →
      1 ≤ specStartYear c fy q → specStartYear c fy q ≤ 9999 →
      fqStart c ⟨fy, q⟩ =
        .ok ⟨specStartYear c fy q, specStartMonth c.startMonth q,
          specStartDay c fy q, 0, 0, 0⟩) ∧
    (∃ s, fqStart ⟨.previous, 5, 31⟩ ⟨2019, 1⟩ = .ok s ∧ s.day = 31) ∧
    (∃ e, fqEnd ⟨.previous, 5, 31⟩ ⟨2019, 1⟩ = .ok e ∧ e.day = 30) := by
  refine ⟨?_, ⟨⟨2018, 5, 31, 0, 0, 0⟩, by decide, rfl⟩,
    ⟨⟨2018, 8, 30, 23, 59, 59⟩, by decide, rfl⟩⟩
  intro c fy q hc hy1 hy2
  rw [specStartYear_eq] at hy1 hy2
  rw [fqStart_eq hc hy1 hy2]
  congr 1
  show (⟨quarterStartYear c fy q, quarterStartMonth c.startMonth q,
    quarterStartDay c fy q, 0, 0, 0⟩ : DateTime) = _
  rw [specStartYear_eq, specStartMonth_eq, specStartDay_eq]

/-- C1 witness: the general formula applied at the default configuration,
fiscal year 2017, quarter 2. -/
theorem fiscalQuarterStart_formula_witness :
    validConfig defaultConfig ∧
    fqStart defaultConfig ⟨2017, 2⟩ =
      .ok ⟨specStartYear defaultConfig 2017 2, specStartMonth 10 2,
        specStartDay defaultConfig 2017 2, 0, 0, 0⟩ :=
  ⟨by decide, fiscalQuarterStart_formula.1 defaultConfig 2017 2 (by decide)
    (by decide) (by decide)⟩

/-- C1 counterexample: under config `(SameCalendarYear, 10, 1)` the pair
`(9999, 2)` is constructible, the claim's formula yields calendar year
10000, and `FiscalQuarter(9999, 2).start` raises instead of returning any
datetime. -/
theorem fiscalQuarterStart_overflow_cex :
    validConfig ⟨.same, 10, 1⟩ ∧ mkFQ 9999 2 = .ok ⟨9999, 2⟩ ∧
    specStartYear ⟨.same, 10, 1⟩ 9999 2 = 10000 ∧
    fqStart ⟨.same, 10, 1⟩ ⟨9999, 2⟩ = .error .valueError := by decide

/-- C2 (code bug): the `fiscal_calendar` context manager performs its
restore after the bare `yield`, with no `try/finally`, so when the wrapped
body raises, the override `(previous, 1, 1)` is left installed instead of
the default configuration being restored; on a normal return the previous
configuration is restored. -/
theorem fiscalCalendar_no_restore_on_raise :
    fiscalCalendar defaultConfig none (some 1) none .raises =
      (⟨.previous, 1, 1⟩, some .userError) ∧
    (⟨.previous, 1, 1⟩ : Config) ≠ defaultConfig ∧
    fiscalCalendar defaultConfig none (some 1) none .normal =
      (defaultConfig, none) := by decide

theorem mkFQ_err_year {fy q : Int} (h : ¬(1 ≤ fy ∧ fy ≤ 9999)) :
    mkFQ fy q = .error .valueError := by
  simp only [mkFQ, checkYear, if_neg h, error_bind]

theorem prevFQ_of_gt {fy q : Int} (h1 : 1 ≤ fy) (h9 : fy ≤ 9999)
    (hq2 : 2 ≤ q) (hq5 : q ≤ 5) : prevFQ ⟨fy, q⟩ = .ok ⟨fy, q - 1⟩ := by
  simp only [prevFQ]
  rw [if_neg (by omega : ¬(q - 1 = 0))]
  simp only [mkFQ, checkYear_ok h1 h9, ok_bind,
    checkQuarter_ok (by omega : 1 ≤ q - 1) (by omega : q - 1 ≤ 4)]

theorem prevFQ_of_one {fy : Int} (h1 : 1 ≤ fy - 1) (h9 : fy - 1 ≤ 9999) :
    prevFQ ⟨fy, 1⟩ = .ok ⟨fy - 1, 4⟩ := by
  simp only [prevFQ]
  rw [if_pos (by norm_num : (1 : Int) - 1 = 0)]
  simp only [mkFQ, checkYear_ok h1 h9, ok_bind,
    checkQuarter_ok (by norm_num : (1 : Int) ≤ 4) (le_refl (4 : Int))]

/-- C6 (amended): for every constructible `(fy, q)`, whenever
`next_fiscal_quarter` succeeds it wraps `(fy, 4)` to `(fy + 1, 1)` and
increments `q` otherwise, and `prev_fiscal_quarter` maps it back; and
symmetrically whenever `prev_fiscal_quarter` succeeds.  (The original
claim fails at the range edges, where the wrapped neighbour's constructor
raises.) -/
theorem quarter_navigation_roundtrip (fy q : Int) (h1 : 1 ≤ fy)
    (h9 : fy ≤ 9999) (hq1 : 1 ≤ q) (hq4 : q ≤ 4) :
    (∀ n, nextFQ ⟨fy, q⟩ = .ok n →
      prevFQ n = .ok ⟨fy, q⟩ ∧
        n = if q = 4 then ⟨fy + 1, 1⟩ else ⟨fy, q + 1⟩) ∧
    (∀ p, prevFQ ⟨fy, q⟩ = .ok p →
      nextFQ p = .ok ⟨fy, q⟩ ∧
        p = if q = 1 then ⟨fy - 1, 4⟩ else ⟨fy, q - 1⟩) := by
  constructor
  · intro n hn
    by_cases h4 : q = 4
    · subst h4
      by_cases hf : fy + 1 ≤ 9999
      · rw [nextFQ_of_four (by omega) hf] at hn
        rw [Except.ok.injEq] at hn
        subst hn
        refine ⟨?_, by rw [if_pos rfl]⟩
        rw [prevFQ_of_one (by omega) (by omega),
          show fy + 1 - 1 = fy by omega]
      · rw [show nextFQ ⟨fy, 4⟩ = mkFQ (fy + 1) 1 from rfl,
          mkFQ_err_year (by omega)] at hn
        exact Except.noConfusion hn
    · rw [nextFQ_of_lt h1 h9 hq1 (by omega)] at hn
      rw [Except.ok.injEq] at hn
      subst hn
      refine ⟨?_, by rw [if_neg h4]⟩
      rw [prevFQ_of_gt h1 h9 (by omega) (by omega),
        show q + 1 - 1 = q by omega]
  · intro p hp
    by_cases hone : q = 1
    · subst hone
      by_cases hf : 1 ≤ fy - 1
      · rw [prevFQ_of_one hf (by omega)] at hp
        rw [Except.ok.injEq] at hp
        subst hp
        refine ⟨?_, by rw [if_pos rfl]⟩
        rw [show nextFQ ⟨fy - 1, 4⟩ = mkFQ (fy - 1 + 1) 1 from rfl]
        simp only [mkFQ, checkYear_ok (by omega : 1 ≤ fy - 1 + 1)
          (by omega : fy - 1 + 1 ≤ 9999), ok_bind,
          checkQuarter_ok (by norm_num : (1 : Int) ≤ 1)
            (by norm_num : (1 : Int) ≤ 4)]
        rw [show fy - 1 + 1 = fy by omega]
      · rw [show prevFQ ⟨fy, 1⟩ = mkFQ (fy - 1) 4 from rfl,
          mkFQ_err_year (by omega)] at hp
        exact Except.noConfusion hp
    · rw [prevFQ_of_gt h1 h9 (by omega) (by omega)] at hp
      rw [Except.ok.injEq] at hp
      subst hp
      refine ⟨?_, by rw [if_neg hone]⟩
      rw [nextFQ_of_lt h1 h9 (by omega) (by omega),
        show q - 1 + 1 = q by omega]

/-- C6 witness: the round-trip at `(2017, 4)`, wrapping into `(2018, 1)`
and back. -/
theorem quarter_navigation_roundtrip_witness :
    prevFQ ⟨2018, 1⟩ = .ok ⟨2017, 4⟩ ∧
    (⟨2018, 1⟩ : FQ) = ⟨2017 + 1, 1⟩ :=
  ((quarter_navigation_roundtrip 2017 4 (by decide) (by decide) (by decide)
    (by decide)).1 ⟨2018, 1⟩ (by decide)).imp id (fun h => by
      rw [h, if_pos rfl])

/-- C6 counterexample: `(9999, 4)` is a valid fiscal quarter, yet
`next_fiscal_quarter` raises (`FiscalQuarter(10000, 1)` is rejected), so
`FiscalQuarter(9999, 4).next.prev == FiscalQuarter(9999, 4)` fails. -/
theorem quarter_navigation_maxyear_cex :
    mkFQ 9999 4 = .ok ⟨9999, 4⟩ ∧
    nextFQ ⟨9999, 4⟩ = .error .valueError := by decide

theorem quarterStartYear_one_bounds {c : Config} (hc : validConfig c)
    {fy : Int} (h2 : 2 ≤ fy) (h9 : fy ≤ 9999) :
    1 ≤ quarterStartYear c fy 1 ∧ quarterStartYear c fy 1 ≤ 9999 := by
  rw [quarterStartYear_one hc]
  rcases c with ⟨sy, sm, sd⟩
  cases sy <;> (try dsimp only) <;> omega

/-- C3 (amended): for every valid configuration and `2 ≤ fy ≤ 9998`, each
quarter's `end` is the start of the next quarter minus one second; adding
one second to `Qq.end` gives `Q(q+1).start`, adding one second to `Q4.end`
gives `FiscalYear(fy+1).start`, and `FiscalYear(fy).start/end` coincide
with `Q1.start`/`Q4.end` — the four quarters partition the fiscal year.
(The original claim fails at the representable-range edges, where the
boundary computations raise.) -/
theorem quarter_partition (c : Config) (fy : Int) (hc : validConfig c)
    (h2 : 2 ≤ fy) (h9 : fy ≤ 9998) :
    (∀ q, 1 ≤ q → q ≤ 4 → ∃ n s, nextFQ ⟨fy, q⟩ = .ok n ∧
      fqStart c n = .ok s ∧ fqEnd c ⟨fy, q⟩ = .ok (subOneSecond s)) ∧
    (∀ q, 1 ≤ q → q ≤ 3 → ∃ e s, fqEnd c ⟨fy, q⟩ = .ok e ∧
      fqStart c ⟨fy, q + 1⟩ = .ok s ∧ addOneSecond e = s) ∧
    (∃ e s, fqEnd c ⟨fy, 4⟩ = .ok e ∧ fyStart c (fy + 1) = .ok s ∧
      addOneSecond e = s) ∧
    fyStart c fy = fqStart c ⟨fy, 1⟩ ∧
    fyEnd c fy = fqEnd c ⟨fy, 4⟩ := by
  have hb1 := quarterStartYear_one_bounds hc h2 (by omega : fy ≤ 9999)
  have hb1' := quarterStartYear_one_bounds hc (by omega : 2 ≤ fy + 1)
    (by omega : fy + 1 ≤ 9999)
  refine ⟨?_, ?_, ?_, ?_, ?_⟩
  · intro q hq1 hq4
    have hend := fqEnd_eq hc h2 h9 hq1 hq4
    by_cases h4 : q = 4
    · subst h4
      rw [if_pos rfl] at hend
      exact ⟨⟨fy + 1, 1⟩, (quarterStartDate c (fy + 1) 1).atMidnight,
        nextFQ_of_four (by omega) (by omega),
        fqStart_eq hc hb1'.1 hb1'.2, hend⟩
    · rw [if_neg h4] at hend
      have hyb := quarterStartYear_bounds (c := c) fy (q + 1)
      exact ⟨⟨fy, q + 1⟩, (quarterStartDate c fy (q + 1)).atMidnight,
        nextFQ_of_lt (by omega) (by omega) hq1 (by omega),
        fqStart_eq hc (by omega) (by omega), hend⟩
  · intro q hq1 hq3
    have hend := fqEnd_eq hc h2 h9 hq1 (by omega)
    rw [if_neg (by omega : ¬(q = 4))] at hend
    have hyb := quarterStartYear_bounds (c := c) fy (q + 1)
    have hvd := quarterStartDate_valid hc (y := fy) (q := q + 1)
      (by omega) (by omega)
    exact ⟨subOneSecond (quarterStartDate c fy (q + 1)).atMidnight,
      (quarterStartDate c fy (q + 1)).atMidnight, hend,
      fqStart_eq hc (by omega) (by omega),
      addOneSecond_subOneSecond_midnight hvd⟩
  · have hend := fqEnd_eq hc h2 h9 (by norm_num : (1 : Int) ≤ 4)
      (le_refl (4 : Int))
    rw [if_pos rfl] at hend
    have hvd := quarterStartDate_valid hc (y := fy + 1) (q := 1)
      hb1'.1 hb1'.2
    exact ⟨subOneSecond (quarterStartDate c (fy + 1) 1).atMidnight,
      (quarterStartDate c (fy + 1) 1).atMidnight, hend,
      fyStart_eq hc (by omega) (by omega),
      addOneSecond_subOneSecond_midnight hvd⟩
  · rw [fyStart_eq hc (by omega) (by omega), fqStart_eq hc hb1.1 hb1.2]
  · have hend := fqEnd_eq hc h2 h9 (by norm_num : (1 : Int) ≤ 4)
      (le_refl (4 : Int))
    rw [if_pos rfl] at hend
    rw [fyEnd_eq hc h2 h9, hend]

/-- C3 witness: the partition equalities at the default configuration,
fiscal year 2017. -/
theorem quarter_partition_witness :
    validConfig defaultConfig ∧
    fyStart defaultConfig 2017 = fqStart defaultConfig ⟨2017, 1⟩ ∧
    fyEnd defaultConfig 2017 = fqEnd defaultConfig ⟨2017, 4⟩ :=
  ⟨by decide,
    (quarter_partition defaultConfig 2017 (by decide) (by decide)
      (by decide)).2.2.2.1,
    (quarter_partition defaultConfig 2017 (by decide) (by decide)
      (by decide)).2.2.2.2⟩

/-- C3 counterexample: 9999 is a valid fiscal year, yet
`FiscalQuarter(9999, 4).end` raises (the next quarter's constructor
rejects year 10000) and `FiscalYear(10000)` is not constructible, so
`Q4.end + 1s == FiscalYear(fy+1).start` fails at `fy = 9999`. -/
theorem quarter_partition_maxyear_cex :
    checkYear 9999 = .ok 9999 ∧
    fqEnd defaultConfig ⟨9999, 4⟩ = .error .valueError ∧
    mkFY 10000 = .error .valueError := by decide

/-- C7 (amended): constructor validation covers exactly the identity
range (`FiscalYear(y)` is accepted iff `1 ≤ y ≤ 9999`, independent of the
configuration), and boundary accessors of `FiscalYear`/`FiscalQuarter`
succeed for `2 ≤ fy ≤ 9998`; but construction does not reject the low end
whose boundary computation underflows — `FiscalYear(1)` constructs and its
`start` raises later under `PreviousCalendarYear` labeling. -/
theorem construction_validation :
    (∀ y : Int, mkFY y = .ok ⟨y⟩ ↔ (1 ≤ y ∧ y ≤ 9999)) ∧
    (∀ (c : Config) (fy q : Int), validConfig c → 2 ≤ fy → fy ≤ 9998 →
      1 ≤ q → q ≤ 4 →
      (∃ s, fyStart c fy = .ok s) ∧ (∃ e, fyEnd c fy = .ok e) ∧
      (∃ s, fqStart c ⟨fy, q⟩ = .ok s) ∧
      (∃ e, fqEnd c ⟨fy, q⟩ = .ok e)) := by
  constructor
  · intro y
    constructor
    · intro h
      by_cases hr : 1 ≤ y ∧ y ≤ 9999
      · exact hr
      · rw [mkFY, checkYear, if_neg hr, error_bind] at h
        exact Except.noConfusion h
    · intro hr
      exact mkFY_ok hr.1 hr.2
  · intro c fy q hc h2 h9 hq1 hq4
    have hyb := quarterStartYear_bounds (c := c) fy q
    refine ⟨⟨_, fyStart_eq hc (by omega) (by omega)⟩,
      ⟨_, fyEnd_eq hc h2 h9⟩,
      ⟨_, fqStart_eq hc (by omega) (by omega)⟩,
      ⟨_, fqEnd_eq hc h2 h9 hq1 hq4⟩⟩

/-- C7 witness: constructor acceptance and boundary success at concrete
inputs. -/
theorem construction_validation_witness :
    mkFY 2017 = .ok ⟨2017⟩ ∧
    ∃ s, fyStart defaultConfig 2017 = .ok s :=
  ⟨(construction_validation.1 2017).mpr (by decide),
    (construction_validation.2 defaultConfig 2017 1 (by decide) (by decide)
      (by decide) (by decide) (by decide)).1⟩

/-- C7 counterexample: `FiscalYear(1)` is accepted at construction under
the default (`PreviousCalendarYear`) configuration, yet its `start`
raises at use — the low end is not rejected at the constructor. -/
theorem construction_validation_minyear_cex :
    mkFY 1 = .ok ⟨1⟩ ∧
    fyStart defaultConfig 1 = .error .valueError := by decide

/-- C4 witness: the resolution property applied to the date 2017-01-01
under the default configuration. -/
theorem moment_resolution_witness :
    ∃ fy : Int,
      (fy = (Moment.date ⟨2017, 1, 1⟩).year ∨
        fy = (Moment.date ⟨2017, 1, 1⟩).year + 1 ∨
        fy = (Moment.date ⟨2017, 1, 1⟩).year - 1) ∧
      fiscalYearOf defaultConfig (.date ⟨2017, 1, 1⟩) = .ok (some fy) ∧
      fyContains defaultConfig ⟨fy⟩ (Moment.date ⟨2017, 1, 1⟩).toOperand =
        .ok true ∧
      ∃! q : Int, (1 ≤ q ∧ q ≤ 4) ∧
        fqContains defaultConfig ⟨fy, q⟩
          (Moment.date ⟨2017, 1, 1⟩).toOperand = .ok true :=
  moment_resolution (c := defaultConfig) (m := .date ⟨2017, 1, 1⟩)
    (by decide) (by decide) (by decide) (by decide)

/-- C4 counterexample: for the valid date 0001-01-01 under the default
configuration, the resolver raises (the `FiscalYear(1)` containment probe
computes a year-zero start), so `m in FiscalYear(fiscal_year_of(m))` does
not hold for every moment. -/
theorem moment_resolution_minyear_cex :
    validMoment (.date ⟨1, 1, 1⟩) ∧
    fiscalYearOf defaultConfig (.date ⟨1, 1, 1⟩) = .error .valueError := by
  decide

/-- C5 (amended): `FiscalYear.isleap` is the four-branch table keyed by
whether the fiscal year's start falls strictly before March 1st of its
calendar year (not on-or-before): under `PreviousCalendarYear` the
candidate calendar year is `fy - 1` when it does and `fy` when it does
not; under `SameCalendarYear` it is `fy` and `fy + 1`; the result is the
Gregorian leap test of that year.  Under the default US configuration,
FY2016 is leap and FY2017 is not. -/
theorem isleap_table :
    (∀ (c : Config) (fy : Int) (b : Bool), fyIsLeap c fy = .ok b →
      ∃ s, fyStart c fy = .ok s ∧
        b = isGregorianLeap (match c.startYear with
          | .previous =>
              if dateLt s.toDate ⟨s.year, 3, 1⟩ then fy - 1 else fy
          | .same =>
              if dateLt s.toDate ⟨s.year, 3, 1⟩ then fy else fy + 1)) ∧
    fyIsLeap defaultConfig 2016 = .ok true ∧
    fyIsLeap defaultConfig 2017 = .ok false := by
  refine ⟨?_, by decide, by decide⟩
  intro c fy b hb
  cases hse : fyStart c fy with
  | error e =>
      rw [fyIsLeap, hse, error_bind] at hb
      exact Except.noConfusion hb
  | ok s =>
      rw [fyIsLeap, hse, ok_bind, Except.ok.injEq] at hb
      refine ⟨s, rfl, ?_⟩
      rw [← hb]
      congr 1
      have hiff : (s.month < 3 ∨ (s.month = 3 ∧ s.day < 1)) ↔
          dateLt s.toDate ⟨s.year, 3, 1⟩ := by
        cases s with
        | mk ty tm td th tmi ts =>
            show (tm < 3 ∨ (tm = 3 ∧ td < 1)) ↔
              (ty < ty ∨ (ty = ty ∧ (tm < 3 ∨ (tm = 3 ∧ td < 1))))
            omega
      rcases c with ⟨sy, sm, sd⟩
      cases sy <;> (try dsimp only) <;>
        by_cases hp : s.month < 3 ∨ (s.month = 3 ∧ s.day < 1)
      · rw [if_pos (decide_eq_true hp), if_pos (hiff.mp hp)]
      · rw [if_neg (by simpa using hp), if_neg (fun hx => hp (hiff.mpr hx))]
      · rw [if_pos (decide_eq_true hp), if_pos (hiff.mp hp)]
      · rw [if_neg (by simpa using hp), if_neg (fun hx => hp (hiff.mpr hx))]

/-- C5 witness: the table applied to the default configuration at FY2016. -/
theorem isleap_table_witness :
    ∃ s, fyStart defaultConfig 2016 = .ok s ∧
      true = isGregorianLeap (match defaultConfig.startYear with
        | .previous =>
            if dateLt s.toDate ⟨s.year, 3, 1⟩ then 2016 - 1 else 2016
        | .same =>
            if dateLt s.toDate ⟨s.year, 3, 1⟩ then 2016 else 2016 + 1) :=
  isleap_table.1 defaultConfig 2016 true (by decide)

/-- C5 counterexample: under config `(PreviousCalendarYear, 3, 1)` the
fiscal year starts exactly on March 1st; the code's strict test
`(start.month, start.day) < (3, 1)` takes the opposite branch from the
claim's "on or before March 1st" predicate, and the two disagree at
FY2016: the code answers `true`, the claim's table `false`. -/
theorem isleap_table_march1_cex :
    fyIsLeap ⟨.previous, 3, 1⟩ 2016 = .ok true ∧
    specIsLeapClaim ⟨.previous, 3, 1⟩ 2016 = .ok false := by decide

theorem validateParams_ok {sy : RawStartYear} {sm sd : Int} {s : StartYear}
    (h : validateFiscalCalendarParams sy sm sd = .ok s) :
    sy = .ok s ∧ 1 ≤ sm ∧ sm ≤ 12 ∧ 1 ≤ sd ∧ sd ≤ monthLength 2001 sm := by
  cases sy with
  | ok s' =>
      simp only [validateFiscalCalendarParams] at h
      rcases hcd : checkDay sm sd with e | d
      · rw [hcd, error_bind] at h
        exact Except.noConfusion h
      · rw [hcd, ok_bind, Except.ok.injEq] at h
        subst h
        simp only [checkDay, checkMonth] at hcd
        by_cases hA : 1 ≤ sm ∧ sm ≤ 12
        · rw [if_pos hA, ok_bind] at hcd
          by_cases hB : 1 ≤ sd ∧ sd ≤ monthLength 2001 sm
          · exact ⟨rfl, hA.1, hA.2, hB.1, hB.2⟩
          · rw [if_neg hB] at hcd
            exact Except.noConfusion hcd
        · rw [if_neg hA, error_bind] at hcd
          exact Except.noConfusion hcd
  | badString =>
      simp only [validateFiscalCalendarParams] at h
      exact Except.noConfusion h
  | nonString =>
      simp only [validateFiscalCalendarParams] at h
      exact Except.noConfusion h

/-- C8: `setup_fiscal_calendar` defaults each omitted parameter to the
currently active value, validates the merged triple before assigning any
global (so it installs all three on success and, as used by the scoped
override, leaves the previous configuration completely unchanged on a
validation failure). -/
theorem setup_calendar_atomic (cur : Config) (psy : Option RawStartYear)
    (psm psd : Option Int) :
    (validConfig cur → setupFiscalCalendar cur none none none = .ok cur) ∧
    (∀ g, setupFiscalCalendar cur psy psm psd = .ok g →
      g.startMonth = psm.getD cur.startMonth ∧
      g.startDay = psd.getD cur.startDay ∧
      psy.getD cur.rawStartYear = .ok g.startYear ∧
      validConfig g) ∧
    (∀ (e : PyErr) (body : BodyOutcome),
      validateFiscalCalendarParams (psy.getD cur.rawStartYear)
        (psm.getD cur.startMonth) (psd.getD cur.startDay) = .error e →
      fiscalCalendar cur psy psm psd body = (cur, some e)) := by
  refine ⟨?_, ?_, ?_⟩
  · intro hv
    obtain ⟨v1, v2, v3, v4⟩ := hv
    rcases cur with ⟨sy, sm, sd⟩
    simp only at v1 v2 v3 v4
    simp only [setupFiscalCalendar, Option.getD_none, Config.rawStartYear,
      validateFiscalCalendarParams, checkDay, checkMonth]
    rw [if_pos ⟨v1, v2⟩]
    simp only [ok_bind]
    rw [if_pos ⟨v3, v4⟩]
    simp only [ok_bind]
  · intro g hg
    rcases hval : validateFiscalCalendarParams (psy.getD cur.rawStartYear)
        (psm.getD cur.startMonth) (psd.getD cur.startDay) with e | s
    · simp only [setupFiscalCalendar, hval, error_bind] at hg
      exact Except.noConfusion hg
    · simp only [setupFiscalCalendar, hval, ok_bind,
        Except.ok.injEq] at hg
      subst hg
      obtain ⟨hsy, hA1, hA2, hB1, hB2⟩ := validateParams_ok hval
      exact ⟨rfl, rfl, hsy, hA1, hA2, hB1, hB2⟩
  · intro e body hval
    simp only [fiscalCalendar, setupFiscalCalendar, Option.getD_some]
    rw [hval]
    rfl

/-- C8 witness: omitting all parameters keeps the default configuration
installed, and an out-of-range `start_month` passed through the scoped
override leaves the active configuration untouched. -/
theorem setup_calendar_atomic_witness :
    setupFiscalCalendar defaultConfig none none none =
      .ok defaultConfig ∧
    fiscalCalendar defaultConfig none (some 0) none .normal =
      (defaultConfig, some .valueError) :=
  ⟨(setup_calendar_atomic defaultConfig none none none).1 (by decide),
    (setup_calendar_atomic defaultConfig none (some 0) none).2.2
      .valueError .normal (by decide)⟩

/-- C9: every comparison operator of the four period types raises
`TypeError` whenever the other operand is not an instance of the same
period type, and every `__contains__` raises `TypeError` — never returns
`False` — whenever the comparand is not a supported type (the same period
type, a strictly finer period type, or a date/datetime moment). -/
theorem type_mismatch_errors :
    (∀ (a : FY) (o : Operand), o.isYearInst = false →
      fyLt a o = .error .typeError ∧ fyLe a o = .error .typeError ∧
      fyEq a o = .error .typeError ∧ fyNe a o = .error .typeError ∧
      fyGt a o = .error .typeError ∧ fyGe a o = .error .typeError) ∧
    (∀ (a : FQ) (o : Operand), o.isQuarterInst = false →
      fqLt a o = .error .typeError ∧ fqLe a o = .error .typeError ∧
      fqEq a o = .error .typeError ∧ fqNe a o = .error .typeError ∧
      fqGt a o = .error .typeError ∧ fqGe a o = .error .typeError) ∧
    (∀ (a : FM) (o : Operand), o.isMonthInst = false →
      fmLt a o = .error .typeError ∧ fmLe a o = .error .typeError ∧
      fmEq a o = .error .typeError ∧ fmNe a o = .error .typeError ∧
      fmGt a o = .error .typeError ∧ fmGe a o = .error .typeError) ∧
    (∀ (a : FD) (o : Operand), o.isDayInst = false →
      fdLt a o = .error .typeError ∧ fdLe a o = .error .typeError ∧
      fdEq a o = .error .typeError ∧ fdNe a o = .error .typeError ∧
      fdGt a o = .error .typeError ∧ fdGe a o = .error .typeError) ∧
    (∀ (c : Config) (a : FY) (o : Operand),
      (o.isYearInst || o.isQuarterInst || o.isMonthInst || o.isDayInst ||
        o.isDateTimeInst || o.isDateInst) = false →
      fyContains c a o = .error .typeError) ∧
    (∀ (c : Config) (a : FQ) (o : Operand),
      (o.isQuarterInst || o.isMonthInst || o.isDayInst ||
        o.isDateTimeInst || o.isDateInst) = false →
      fqContains c a o = .error .typeError) ∧
    (∀ (c : Config) (a : FM) (o : Operand),
      (o.isMonthInst || o.isDayInst || o.isDateTimeInst ||
        o.isDateInst) = false →
      fmContains c a o = .error .typeError) ∧
    (∀ (c : Config) (a : FD) (o : Operand),
      (o.isDayInst || o.isDateTimeInst || o.isDateInst) = false →
      fdContains c a o = .error .typeError) := by
  refine ⟨?_, ?_, ?_, ?_, ?_, ?_, ?_, ?_⟩
  · intro a o h
    cases o <;> simp [Operand.isYearInst, Operand.isQuarterInst,
      Operand.isMonthInst, Operand.isDayInst] at h <;>
      exact ⟨rfl, rfl, rfl, rfl, rfl, rfl⟩
  · intro a o h
    cases o <;> simp [Operand.isYearInst, Operand.isQuarterInst,
      Operand.isMonthInst, Operand.isDayInst] at h <;>
      exact ⟨rfl, rfl, rfl, rfl, rfl, rfl⟩
  · intro a o h
    cases o <;> simp [Operand.isYearInst, Operand.isQuarterInst,
      Operand.isMonthInst, Operand.isDayInst] at h <;>
      exact ⟨rfl, rfl, rfl, rfl, rfl, rfl⟩
  · intro a o h
    cases o <;> simp [Operand.isYearInst, Operand.isQuarterInst,
      Operand.isMonthInst, Operand.isDayInst] at h <;>
      exact ⟨rfl, rfl, rfl, rfl, rfl, rfl⟩
  · intro c a o h
    cases o <;> simp [Operand.isYearInst, Operand.isQuarterInst,
      Operand.isMonthInst, Operand.isDayInst, Operand.isDateTimeInst,
      Operand.isDateInst] at h <;> rfl
  · intro c a o h
    cases o <;> simp [Operand.isYearInst, Operand.isQuarterInst,
      Operand.isMonthInst, Operand.isDayInst, Operand.isDateTimeInst,
      Operand.isDateInst] at h <;> rfl
  · intro c a o h
    cases o <;> simp [Operand.isYearInst, Operand.isQuarterInst,
      Operand.isMonthInst, Operand.isDayInst, Operand.isDateTimeInst,
      Operand.isDateInst] at h <;> rfl
  · intro c a o h
    cases o <;> simp [Operand.isYearInst, Operand.isQuarterInst,
      Operand.isMonthInst, Operand.isDayInst, Operand.isDateTimeInst,
      Operand.isDateInst] at h <;> rfl

/-- C9 witness: comparing a `FiscalYear` to an unsupported object and
testing `FiscalYear in FiscalDay` both raise `TypeError`. -/
theorem type_mismatch_errors_witness :
    fyEq ⟨2017⟩ .other = .error .typeError ∧
    fdContains defaultConfig ⟨2017, 1⟩ (.year ⟨2017⟩) =
      .error .typeError :=
  ⟨(type_mismatch_errors.1 ⟨2017⟩ .other (by decide)).2.2.1,
    type_mismatch_errors.2.2.2.2.2.2.2 defaultConfig ⟨2017, 1⟩
      (.year ⟨2017⟩) (by decide)⟩

/-- C10: `FiscalYear.__contains__` decides sub-period membership purely by
fiscal-year label equality, independent of the calendar configuration,
whereas `FiscalQuarter.__contains__` compares computed boundaries: with
the quarter and the fiscal day fixed, changing the configuration flips
the answer (`FiscalDay(2017, 91)` is in `FiscalQuarter(2017, 1)` under
the default October-start configuration, but not under a February
start). -/
theorem year_containment_by_label :
    (∀ (c c' : Config) (a : FY) (b : FQ),
      fyContains c a (.quarter b) = .ok (decide (a.fy = b.fy)) ∧
      fyContains c a (.quarter b) = fyContains c' a (.quarter b)) ∧
    (∀ (c c' : Config) (a : FY) (b : FM),
      fyContains c a (.month b) = .ok (decide (a.fy = b.fy)) ∧
      fyContains c a (.month b) = fyContains c' a (.month b)) ∧
    (∀ (c c' : Config) (a : FY) (b : FD),
      fyContains c a (.day b) = .ok (decide (a.fy = b.fy)) ∧
      fyContains c a (.day b) = fyContains c' a (.day b)) ∧
    fqContains defaultConfig ⟨2017, 1⟩ (.day ⟨2017, 91⟩) = .ok true ∧
    fqContains ⟨.previous, 2, 1⟩ ⟨2017, 1⟩ (.day ⟨2017, 91⟩) =
      .ok false := by
  refine ⟨fun c c' a b => ⟨rfl, rfl⟩, fun c c' a b => ⟨rfl, rfl⟩,
    fun c c' a b => ⟨rfl, rfl⟩, ?_, ?_⟩ <;>
    · set_option maxRecDepth 4000 in decide

end Fiscalyear
